import Mathlib

/-!
# Verification of the STX_Agent extraction pipeline and advisory dialogue engine

Shallow embedding of the two components specified for this repository:

* `src/pdf-extractor-service/main.py` — the text normalizer (`clean_text`) and the
  deterministic field extractor (`parse_german_tax_document`);
* `src/tax-agent-backend/agent/advisor.py` — the threshold evaluator
  (`TaxAdvisor._is_below_threshold`, `TaxAdvisor._early_exit_summary`) and the
  dialogue engine (`TaxAdvisor.next_advisor_message`).

Conventions of the embedding:

* Python strings are Lean `String` / `List Char`; the embedding covers the ASCII +
  Latin-1/€ fragment actually used by the source (Python's `\w`, `\s`, `str.strip`
  also accept further Unicode classes that never occur in these documents).
* Python floats are embedded as exact rationals `Rat`; every concrete value used
  by a theorem below (e.g. `2033.00`, `16.75`) is exactly representable as a
  binary double, so the embedding agrees with CPython on those values.
* Dynamically-typed dict entries are embedded as `PyVal` (`None` / `int` / `str` /
  `float`); a missing key is `Option.none` around a `PyVal`.
* Fallible Python code is embedded as `Except PyErr _`; an uncaught exception is
  `.error`, a `try/except` is a `match` on the nested result.
-/

/-- The exception kinds that the embedded code can raise. -/
inductive PyErr where
  | typeError
  | valueError
  | keyError
  /-- Raised when evaluating a name that is not bound in any enclosing scope,
  such as `filename` inside `parse_german_tax_document`. -/
  | nameError
  /-- Any failure raised out of the external oracle (OpenAI) call. -/
  | serviceError
  deriving DecidableEq, Repr

/-- A dynamically typed Python value, as stored in `extracted_data` / `user_data`. -/
inductive PyVal where
  | vNone
  | vInt (n : Int)
  | vStr (s : String)
  | vFloat (q : Rat)
  deriving DecidableEq, Repr

namespace PyVal

/-- Python `int(x)`: identity on ints, truncation toward zero on floats,
decimal-literal parsing (optional sign, optional surrounding whitespace) on
strings, `TypeError`/`ValueError` (here `none`) otherwise.  PEP 515 underscore
grouping is not modelled; no theorem below evaluates it. -/
def toIntPy : PyVal → Option Int
  | vNone => none
  | vInt n => some n
  | vFloat q => some (q.num.tdiv (q.den : Int))
  | vStr s => parseIntStr s.data
where
  /-- strip leading whitespace, then sign, then digits, then trailing whitespace -/
  parseIntStr (cs : List Char) : Option Int :=
    let cs := cs.dropWhile (·.isWhitespace)
    let cs := (cs.reverse.dropWhile (·.isWhitespace)).reverse
    match cs with
    | '-' :: rest => (parseDigits rest).map (fun n => -(n : Int))
    | '+' :: rest => (parseDigits rest).map (fun n => (n : Int))
    | rest => (parseDigits rest).map (fun n => (n : Int))
  parseDigits (cs : List Char) : Option Nat :=
    if cs ≠ [] ∧ cs.all (·.isDigit) then
      some (cs.foldl (fun a c => a * 10 + (c.toNat - '0'.toNat)) 0)
    else none

/-- The numeric value of a `PyVal`, when it is a number (`int` or `float`). -/
def numVal : PyVal → Option Rat
  | vInt n => some (n : Rat)
  | vFloat q => some q
  | _ => none

/-- `v` is `None` or a number — the domain of the record fields that the spec's
data model (§3) declares as `decimal`/absent. -/
def numericOrNone : PyVal → Bool
  | vStr _ => false
  | _ => true

end PyVal

namespace Advisor

/-- `TaxAdvisor.TAX_FREE_THRESHOLDS` (advisor.py lines 6–16). -/
def TAX_FREE_THRESHOLDS : Int → Option Nat
  | 2017 => some 8820
  | 2018 => some 9000
  | 2019 => some 9168
  | 2020 => some 9408
  | 2021 => some 9744
  | 2022 => some 10347
  | 2023 => some 10908
  | 2024 => some 11604
  | 2025 => some 12300
  | _ => none

/-- The three `user_data` entries that `_is_below_threshold` and
`_early_exit_summary` read.  `none` means the dict key is absent. -/
structure UserData where
  year : Option PyVal
  gross_income : Option PyVal
  income_tax_paid : Option PyVal
  deriving DecidableEq, Repr

/-- Python `x < t` for a dict value `x` against an `int` threshold `t`:
defined for numbers, `TypeError` for a string (and for `None`, which the
caller has already excluded). -/
def pyLtInt : PyVal → Nat → Except PyErr Bool
  | PyVal.vInt n, t => .ok (decide (n < (t : Int)))
  | PyVal.vFloat q, t => .ok (decide (q < (t : Rat)))
  | PyVal.vStr _, _ => .error .typeError
  | PyVal.vNone, _ => .error .typeError

/-- `TaxAdvisor._is_below_threshold` (advisor.py lines 67–77):
`year = user_data.get("year")`, `gross_income = user_data.get("gross_income", 0)`;
`int(year)` with `TypeError`/`ValueError` caught returning `False`; then
`threshold is not None and gross_income is not None` guarding
`gross_income < threshold`. -/
def is_below_threshold (d : UserData) : Except PyErr Bool :=
  let year := d.year.getD PyVal.vNone
  let gross_income := d.gross_income.getD (PyVal.vInt 0)
  match year.toIntPy with
  | none => .ok false            -- except (TypeError, ValueError): return False
  | some year_int =>
    match TAX_FREE_THRESHOLDS year_int with
    | none => .ok false
    | some threshold =>
      if gross_income = PyVal.vNone then .ok false
      else pyLtInt gross_income threshold

end Advisor

instance {ε α : Type} [DecidableEq ε] [DecidableEq α] : DecidableEq (Except ε α) := fun x y =>
  match x, y with
  | .ok a, .ok b =>
    if h : a = b then .isTrue (by rw [h]) else .isFalse (by simp [h])
  | .error a, .error b =>
    if h : a = b then .isTrue (by rw [h]) else .isFalse (by simp [h])
  | .ok _, .error _ => .isFalse (by simp)
  | .error _, .ok _ => .isFalse (by simp)

/-! ## String and number-formatting helpers shared by the embedded components -/

/-- Python's `needle in haystack` substring test, on character lists. -/
def containsSub (needle : List Char) : List Char → Bool
  | [] => needle.isEmpty
  | c :: t => needle.isPrefixOf (c :: t) || containsSub needle t

/-- Python's `needle in haystack` on strings. -/
def strContains (needle hay : String) : Bool := containsSub needle.data hay.data

/-- Decimal digits of a natural number, most significant first. -/
def natDigitChars (n : Nat) : List Char := (toString n).data

/-- Insert `,` thousands separators walking least-significant-first digits. -/
def commaGroupAux : Nat → List Char → List Char
  | _, [] => []
  | cnt, c :: cs =>
    if cnt = 3 then ',' :: c :: commaGroupAux 1 cs
    else c :: commaGroupAux (cnt + 1) cs

/-- `format(n, ",d")`-style digit grouping of a natural number. -/
def commaGroup (n : Nat) : String :=
  String.mk ((commaGroupAux 0 (natDigitChars n).reverse).reverse)

/-- Round `100 * q` to the nearest integer, ties to even — the rounding used by
Python's two-decimal fixed-point formatting (exact for the doubles involved
here).  Computed on `Int` numerator/denominator so that it evaluates by `decide`. -/
def roundHalfEven100 (q : Rat) : Int :=
  let n := 100 * q.num
  let d := (q.den : Int)
  let f := n.ediv d                  -- ⌊100q⌋, since d > 0
  let r := n - f * d                 -- remainder in [0, d)
  if 2 * r < d then f
  else if d < 2 * r then f + 1
  else if f % 2 = 0 then f else f + 1

/-- Two-digit, zero-padded rendering of `m < 100`. -/
def twoDigits (m : Nat) : String :=
  if m < 10 then "0" ++ toString m else toString m

/-- Fixed-point rendering of a signed number of cents, `"{x:.2f}"` style. -/
def centsFixed2 (cents : Int) : String :=
  (if cents < 0 then "-" else "") ++ toString (cents.natAbs / 100) ++ "." ++ twoDigits (cents.natAbs % 100)

/-- Fixed-point rendering with thousands grouping, `"{x:,.2f}"` style. -/
def centsCommaFixed2 (cents : Int) : String :=
  (if cents < 0 then "-" else "") ++ commaGroup (cents.natAbs / 100) ++ "." ++ twoDigits (cents.natAbs % 100)

/-- Python `f"{v:.2f}"`: defined on numbers, `TypeError` (none) otherwise. -/
def fmtFixed2 : PyVal → Option String
  | .vInt n => some (centsFixed2 (100 * n))
  | .vFloat q => some (centsFixed2 (roundHalfEven100 q))
  | _ => none

/-- Python `f"{v:,.2f}"`: defined on numbers, `TypeError` (none) otherwise. -/
def fmtCommaFixed2 : PyVal → Option String
  | .vInt n => some (centsCommaFixed2 (100 * n))
  | .vFloat q => some (centsCommaFixed2 (roundHalfEven100 q))
  | _ => none

/-- Python `f"{n:,.0f}"` on the (integer) thresholds. -/
def fmtComma0 (n : Nat) : String := commaGroup n

/-- Python `f"{v}"` (`str()`): the fragment exercised by the advisor's
f-strings.  Float `repr` is modelled only for rationals that are exact in two
decimals, which covers every value a theorem below evaluates. -/
def pyStrRepr : PyVal → String
  | .vNone => "None"
  | .vInt n => toString n
  | .vStr s => s
  | .vFloat q =>
    if q.den = 1 then toString q.num ++ ".0"
    else if (100 * q.num) % (q.den : Int) = 0 then centsFixed2 (roundHalfEven100 q)
    else toString q.num ++ "/" ++ toString q.den

namespace Advisor

/-- One entry of `conversation_history`: a `{"role": ..., "content": ...}` dict. -/
structure Msg where
  role : String
  content : String
  deriving DecidableEq, Repr

/-- The `extracted_data` dict as read by `_build_initial_summary`
(`.get` misses are `none`). -/
structure ExtractedData where
  fallback : Option String
  full_name : Option PyVal
  address : Option PyVal
  employer : Option PyVal
  total_hours : Option PyVal
  gross_income : Option PyVal
  income_tax_paid : Option PyVal
  year : Option PyVal
  deriving DecidableEq, Repr

/-- The mutable state of a `TaxAdvisor` instance that `next_advisor_message`
reads and writes. -/
structure AdvisorState where
  conversation_history : List Msg
  extracted_data : ExtractedData
  user_data : UserData
  filed_years : List Int
  deriving DecidableEq, Repr

/-- The marker substring that step 2 of `next_advisor_message` scans history
for (advisor.py line 95). -/
def summaryMarker : String := "Here’s a quick summary"

/-- `TaxAdvisor._build_initial_summary` (advisor.py lines 27–49).  The
`{income:,.2f}` / `{tax:,.2f}` conversions raise `TypeError` on non-numbers
(evaluated in f-string order: income before tax). -/
def build_initial_summary (ed : ExtractedData) : Except PyErr String :=
  match ed.fallback with
  | some fb => .ok ("Could not parse structured data. Here is the extracted info:\n\n" ++ fb)
  | none =>
    let name := ed.full_name.getD (.vStr "N/A")
    let address := ed.address.getD (.vStr "N/A")
    let employer := ed.employer.getD (.vStr "N/A")
    let hours := ed.total_hours.getD (.vStr "not specified")
    let income := ed.gross_income.getD (.vInt 0)
    let tax := ed.income_tax_paid.getD (.vInt 0)
    let year := ed.year.getD (.vStr "unknown")
    match fmtCommaFixed2 income with
    | none => .error .typeError
    | some incomeStr =>
      match fmtCommaFixed2 tax with
      | none => .error .typeError
      | some taxStr =>
        .ok ("Here’s a quick summary of your  " ++ (pyStrRepr year ++ (" tax data:\n\n"
          ++ ("👤 **Name:** " ++ (pyStrRepr name ++ ("\n🏠 **Address:** " ++ (pyStrRepr address
          ++ ("\n🏢 **Employer:** " ++ (pyStrRepr employer ++ ("\n⏱️ **Hours Worked:** "
          ++ (pyStrRepr hours ++ ("\n💶 **Gross Income:** €" ++ (incomeStr
          ++ ("\n💰 **Income Tax Paid:** €" ++ (taxStr
          ++ "\n\nLet’s begin with a few quick questions to see what deductions you might qualify for. 😊")))))))))))))))

/-- Python dict lookup `TAX_FREE_THRESHOLDS[year]` under Python key equality:
an `int` key hits directly, a `float` equal to an `int` key hits the same slot,
a string or `None` misses (`KeyError`). -/
def thresholdsLookupPy : PyVal → Option Nat
  | .vInt n => TAX_FREE_THRESHOLDS n
  | .vFloat q => if q.den = 1 then TAX_FREE_THRESHOLDS q.num else none
  | _ => none

/-- `TaxAdvisor._early_exit_summary` (advisor.py lines 79–87).  Note that the
dict subscript uses the raw `year` value (not the `int(year)` conversion that
`_is_below_threshold` used), so it can raise `KeyError`; the `{refund:.2f}`
conversion can raise `TypeError`.  F-string evaluation order: the subscript
before the refund conversion. -/
def early_exit_summary (d : UserData) : Except PyErr String :=
  let year := d.year.getD .vNone
  let refund := d.income_tax_paid.getD (.vInt 0)
  match thresholdsLookupPy year with
  | none => .error .keyError
  | some threshold =>
    match fmtFixed2 refund with
    | none => .error .typeError
    | some refundStr =>
      .ok (("Your gross income in " ++ pyStrRepr year ++ " is below the tax-free threshold of ")
        ++ (("€" ++ fmtComma0 threshold)
        ++ ((".\nYou are likely eligible for a full refund of your paid income tax: **")
        ++ (("€" ++ refundStr)
        ++ "**.\nWe don’t need further details. ✅\n\nWould you like to file a tax return for another year?"))))

/-- The step-2 history scan of `next_advisor_message` (advisor.py line 95):
some assistant message already contains the summary marker. -/
def hasSummaryMsg (h : List Msg) : Bool :=
  h.any (fun m => m.role == "assistant" && containsSub summaryMarker.data m.content.data)

/-- Insertion sort, standing in for Python's `sorted`. -/
def insertSorted (x : Int) : List Int → List Int
  | [] => [x]
  | y :: ys => if x ≤ y then x :: y :: ys else y :: insertSorted x ys

/-- `sorted(list(self.filed_years))` where `filed_years` is a set. -/
def sortedFiledYears (l : List Int) : List Int :=
  (l.eraseDups).foldr insertSorted []

/-- The step-3 system message of `next_advisor_message` (advisor.py lines 103–121). -/
def system_message (filed_years : List Int) : Msg :=
  let fy := sortedFiledYears filed_years
  let filed_years_str := if fy.isEmpty then "none" else String.intercalate ", " (fy.map toString)
  ⟨"system",
    "You are a professional German tax return advisor helping a user file their tax return.\n"
    ++ "Ask only ONE question at a time. Be short and professional.\n"
    ++ "Ask follow-up questions based only on what has already been answered.\n"
    ++ "Your goal is to:\n"
    ++ "- Confirm the filing year\n"
    ++ "- Confirm professional status (student, graduate, employee)\n"
    ++ "- Ask relevant questions to find possible deductions (university fees, insurance, relocation, etc.)\n"
    ++ "- Stop asking questions and generate summary if income is below threshold.\n"
    ++ "- After filing is done, ask if the user wants to file for another year.\n"
    ++ "- The user has already filed for these years: " ++ filed_years_str ++ ".\n"
    ++ "If the user has not filed for the previous year or next year, suggest filing for those years as well.\n"⟩

/-- `TaxAdvisor.next_advisor_message` (advisor.py lines 89–139).  The openai
chat-completion call is abstracted by the `oracle` argument: `.error e` models
the call raising, `.ok none` / `.ok (some s)` model `response.choices[0].message.content`.
The composed `[system_message] + history` prompt does not affect the state, so
it appears only through `oracle`. -/
def next_advisor_message (st : AdvisorState) (oracle : Except PyErr (Option String)) :
    Except PyErr (String × AdvisorState) :=
  -- Step 1: early exit if the tax-free threshold is met
  match is_below_threshold st.user_data with
  | .error e => .error e
  | .ok true =>
    match early_exit_summary st.user_data with
    | .error e => .error e
    | .ok s => .ok (s, st)
  | .ok false =>
    -- Step 2: insert the readable summary at the head of history if not present
    if hasSummaryMsg st.conversation_history then
      -- Steps 3–5: compose [system_message] + history and call the oracle
      match oracle with
      | .error e => .error e
      | .ok reply =>
        match reply with
        | some r =>
          if r ≠ "" then
            .ok (r, { st with conversation_history := st.conversation_history ++ [⟨"assistant", r⟩] })
          else .ok ("[No response from advisor]", st)
        | none => .ok ("[No response from advisor]", st)
    else
      match build_initial_summary st.extracted_data with
      | .error e => .error e
      | .ok summary =>
        .ok (summary, { st with conversation_history := ⟨"assistant", summary⟩ :: st.conversation_history })

end Advisor

/-! ## Shared text utilities (Python `\s`, `\w`, `str.strip`, `re.sub(r'\s+',' ')`) -/

namespace Txt

/-- Python's `\s` on the ASCII fragment: space, tab, newline, CR, VT, FF. -/
def isWS (c : Char) : Bool :=
  c = ' ' || c = '\t' || c = '\n' || c = '\r' || c = '\x0b' || c = '\x0c'

/-- Python's `\w` on the ASCII fragment: letters, digits, underscore. -/
def isWordChar (c : Char) : Bool := c.isAlpha || c.isDigit || c = '_'

/-- `re.sub(r'\s+', ' ', ·)`: collapse every whitespace run to one space.
The flag records whether the previous character was whitespace. -/
def collapseAux : Bool → List Char → List Char
  | _, [] => []
  | prevWS, c :: cs =>
    if isWS c then
      if prevWS then collapseAux true cs
      else ' ' :: collapseAux true cs
    else c :: collapseAux false cs

def collapse (l : List Char) : List Char := collapseAux false l

/-- Python `str.strip()` (ASCII-whitespace fragment). -/
def stripBoth (l : List Char) : List Char :=
  (((l.dropWhile isWS).reverse).dropWhile isWS).reverse

/-- `int()` of a nonempty all-digit string. -/
def digitsToNat (ds : List Char) : Nat :=
  ds.foldl (fun a c => a * 10 + (c.toNat - '0'.toNat)) 0

def SpacesOK (l : List Char) : Prop := ∀ c ∈ l, isWS c = true → c = ' '

def NoAdjWS (l : List Char) : Prop :=
  l.Chain' fun a b => ¬(isWS a = true ∧ isWS b = true)

end Txt

namespace Extractor

/-! ### The text normalizer `clean_text` (pdf-extractor-service/main.py lines 259–316) -/

/-- A lexical token of the numeric-repair passes: a maximal run of `\w`
characters, or a single non-word character.  `re.sub(r'\b\d{4,6}\b', f, text)`
rewrites exactly the maximal word runs that are all digits with length 4–6
(a digit run adjacent to a letter or `_` has no `\b` boundary there, and a
longer digit run matches at no position because `\b` fails inside it). -/
inductive Toke where
  | wrd (s : List Char)
  | sep (c : Char)
  deriving DecidableEq, Repr

/-- Close the pending (reversed) word-run accumulator. -/
def flushAcc (acc : List Char) (ts : List Toke) : List Toke :=
  if acc.isEmpty then ts else .wrd acc.reverse :: ts

def tokenizeAux : List Char → List Char → List Toke
  | acc, [] => flushAcc acc []
  | acc, c :: cs =>
    if Txt.isWordChar c then tokenizeAux (c :: acc) cs
    else flushAcc acc (.sep c :: tokenizeAux [] cs)

/-- Split into maximal word-character runs and single separator characters. -/
def tokenize (l : List Char) : List Toke := tokenizeAux [] l

def renderToks : List Toke → List Char
  | [] => []
  | .wrd s :: ts => s ++ renderToks ts
  | .sep c :: ts => c :: renderToks ts

/-- `clean_text.fix_number_format` (main.py lines 284–297), applied to a
matched token. -/
def fix_number_format (s : List Char) : List Char :=
  if 4 ≤ s.length ∧ s.length ≤ 6 then
    let num_val := Txt.digitsToNat s
    if 1000 ≤ num_val ∧ num_val ≤ 999999 then
      if 5 ≤ s.length then s.take (s.length - 2) ++ '.' :: s.drop (s.length - 2)
      else if 2000 < num_val then s.take (s.length - 2) ++ '.' :: s.drop (s.length - 2)
      else s
    else s
  else s

/-- `clean_text.fix_large_number_format` (main.py lines 303–311). -/
def fix_large_number_format (s : List Char) : List Char :=
  if 6 ≤ s.length then
    let num_val := Txt.digitsToNat s
    if 100000 ≤ num_val ∧ num_val ≤ 999999 then
      s.take (s.length - 2) ++ '.' :: s.drop (s.length - 2)
    else s
  else s

/-- The per-token gate of `re.sub(r'\b\d{lo,hi}\b', f, ·)`: apply `f` when the
token is all digits with length in `[lo, hi]`. -/
def gateFix (lo hi : Nat) (f : List Char → List Char) (s : List Char) : List Char :=
  if s.all Char.isDigit ∧ lo ≤ s.length ∧ s.length ≤ hi then f s else s

/-- Apply `f` to every standalone all-digit token whose length is in
`[lo, hi]` — the action of `re.sub(r'\b\d{lo,hi}\b', f, ·)`. -/
def subNumTokens (lo hi : Nat) (f : List Char → List Char) : Toke → Toke
  | .wrd s => .wrd (gateFix lo hi f s)
  | .sep c => .sep c

def numberPass (lo hi : Nat) (f : List Char → List Char) (l : List Char) : List Char :=
  renderToks ((tokenize l).map (subNumTokens lo hi f))

/-- `re.sub(r'\b\d{4,6}\b', fix_number_format, ·)` (main.py line 300). -/
def pass1 : List Char → List Char := numberPass 4 6 fix_number_format

/-- `re.sub(r'\b\d{6,7}\b', fix_large_number_format, ·)` (main.py line 314). -/
def pass2 : List Char → List Char := numberPass 6 7 fix_large_number_format

/-- `.replace('\r\n', '\n').replace('\r', '\n')` (main.py line 273): the two
sequential replaces fuse into one left-to-right scan. -/
def replCRLF : List Char → List Char
  | [] => []
  | [c] => if c = '\r' then ['\n'] else [c]
  | c :: d :: cs =>
    if c = '\r' then
      if d = '\n' then '\n' :: replCRLF cs
      else '\n' :: replCRLF (d :: cs)
    else c :: replCRLF (d :: cs)

/-- Python `text.split('\n')`. -/
def splitNL : List Char → List (List Char)
  | [] => [[]]
  | c :: cs =>
    if c = '\n' then [] :: splitNL cs
    else
      match splitNL cs with
      | [] => [[c]]
      | h :: t => (c :: h) :: t

/-- `'\n'.join(·)`. -/
def joinNL : List (List Char) → List Char
  | [] => []
  | [l] => l
  | l :: ls => l ++ '\n' :: joinNL ls

/-- The character whitelist of main.py line 270: `[\w\s\.\,\-\€\(\)\:\;]`. -/
def isAllowed (c : Char) : Bool :=
  Txt.isWordChar c || Txt.isWS c || c = '.' || c = ',' || c = '-' || c = '€'
    || c = '(' || c = ')' || c = ':' || c = ';'

/-- `clean_text` (main.py lines 259–316): whitespace collapse, character
whitelist, line-terminator canonicalization, blank-line removal, the two
numeric-repair passes, and a final strip. -/
def clean_text (text : String) : String :=
  if text = "" then ""
  else
    let t1 := Txt.collapse text.data
    let t2 := t1.filter isAllowed
    let t3 := replCRLF t2
    let t4 := joinNL (((splitNL t3).map Txt.stripBoth).filter (· ≠ []))
    let t5 := pass1 t4
    let t6 := pass2 t5
    String.mk (Txt.stripBoth t6)

/-- `rest` starts at a token boundary: empty or a non-word character. -/
def AtBoundary (rest : List Char) : Prop :=
  rest = [] ∨ ∃ c rest', rest = c :: rest' ∧ Txt.isWordChar c = false

/-- The numeric-repair rule exactly as claim C2 states it (a refinement target,
written from the claim's words, to be compared with the composition of the two
source passes): a standalone token of 4–6 digits with value in [1000, 999999]
and (length ≥ 5, or length 4 with value > 2000) gets a decimal point inserted
two digits from the right; so does a standalone token of 6–7 digits with value
in [100000, 999999]; all other tokens are left unchanged. -/
def claimNumericRepair (t : List Char) : List Char :=
  if (4 ≤ t.length ∧ t.length ≤ 6 ∧ 1000 ≤ Txt.digitsToNat t ∧ Txt.digitsToNat t ≤ 999999
        ∧ (5 ≤ t.length ∨ (t.length = 4 ∧ 2000 < Txt.digitsToNat t)))
      ∨ (6 ≤ t.length ∧ t.length ≤ 7 ∧ 100000 ≤ Txt.digitsToNat t
          ∧ Txt.digitsToNat t ≤ 999999) then
    t.take (t.length - 2) ++ '.' :: t.drop (t.length - 2)
  else t


end Extractor

namespace Extractor

/-! ### The field extractor `parse_german_tax_document` (main.py lines 79–187)

Each `re.search` is embedded as a leftmost scan (`searchSuffixes`) of a
position-wise matcher.  For the simple patterns every quantifier is followed by
a character class disjoint from its own (`\d+` before `\s+`, literals starting
with non-whitespace after `\s+`/`\s*`), so greedy maximal-munch matching is
complete and backtracking cannot produce a match that maximal munch misses.
The employer patterns, whose lazy group `([A-Za-z\s]+?)` overlaps with the
preceding `\s+`, get a faithful backtracking engine (`empGroup`). -/

/-- Leftmost-match `re.search`: try the matcher at every start position. -/
def searchSuffixes {α : Type} (f : List Char → Option α) : List Char → Option α
  | [] => f []
  | c :: cs => (f (c :: cs)).orElse fun _ => searchSuffixes f cs

/-- Match a case-sensitive literal, returning the rest. -/
def litMatch : List Char → List Char → Option (List Char)
  | [], cs => some cs
  | _ :: _, [] => none
  | l :: ls, c :: cs => if c = l then litMatch ls cs else none

/-- Match a literal case-insensitively (pattern given in lower case),
as under `re.IGNORECASE`. -/
def litMatchCI : List Char → List Char → Option (List Char)
  | [], cs => some cs
  | _ :: _, [] => none
  | l :: ls, c :: cs => if c.toLower = l then litMatchCI ls cs else none

/-- `Veranlagungszeitraum:\s*(\d{2})\.(\d{2})` at one position; yields
`int("20" + group(2))` (main.py lines 96–100). -/
def matchYearAt (cs : List Char) : Option Int :=
  (litMatch "Veranlagungszeitraum:".data cs).bind fun cs1 =>
    match cs1.dropWhile Txt.isWS with
    | d1 :: d2 :: '.' :: d3 :: d4 :: _ =>
      if d1.isDigit && d2.isDigit && d3.isDigit && d4.isDigit then
        some ((2000 + 10 * (d3.toNat - '0'.toNat) + (d4.toNat - '0'.toNat) : Nat) : Int)
      else none
    | _ => none

def yearScan (text : List Char) : Option Int := searchSuffixes matchYearAt text

/-- `Identifikationsnummer\s+(\d+\s+\d+\s+\d+)` at one position
(main.py line 135); the capture is the literal text span. -/
def matchNameAt (cs : List Char) : Option (List Char) :=
  (litMatch "Identifikationsnummer".data cs).bind fun cs1 =>
    let w0 := cs1.takeWhile Txt.isWS
    let cs2 := cs1.dropWhile Txt.isWS
    let d1 := cs2.takeWhile Char.isDigit
    let cs3 := cs2.dropWhile Char.isDigit
    let w1 := cs3.takeWhile Txt.isWS
    let cs4 := cs3.dropWhile Txt.isWS
    let d2 := cs4.takeWhile Char.isDigit
    let cs5 := cs4.dropWhile Char.isDigit
    let w2 := cs5.takeWhile Txt.isWS
    let cs6 := cs5.dropWhile Txt.isWS
    let d3 := cs6.takeWhile Char.isDigit
    if w0 ≠ [] && d1 ≠ [] && w1 ≠ [] && d2 ≠ [] && w2 ≠ [] && d3 ≠ [] then
      some (d1 ++ w1 ++ d2 ++ w2 ++ d3)
    else none

def nameScan (text : List Char) : Option (List Char) := searchSuffixes matchNameAt text

/-- `Steuerklasse\s+(\d+)` at one position; yields `int(group(1))`
(main.py lines 140–142). -/
def matchSteuerklasseAt (cs : List Char) : Option Int :=
  (litMatch "Steuerklasse".data cs).bind fun cs1 =>
    let w0 := cs1.takeWhile Txt.isWS
    let cs2 := cs1.dropWhile Txt.isWS
    let ds := cs2.takeWhile Char.isDigit
    if w0 ≠ [] && ds ≠ [] then some ((Txt.digitsToNat ds : Nat) : Int) else none

def steuerklasseScan (text : List Char) : Option Int :=
  searchSuffixes matchSteuerklasseAt text

/-- A `\d{2}\.\d{2}` group: exactly `dd.dd`. -/
def matchDDdotDD : List Char → Option (List Char × List Char)
  | a :: b :: '.' :: c :: d :: rest =>
    if a.isDigit && b.isDigit && c.isDigit && d.isDigit then
      some ([a, b, '.', c, d], rest)
    else none
  | _ => none

/-- `Beschäftigungsjahr\s+\d{4}\s+vom\s+(\d{2}\.\d{2})\s+bis\s+(\d{2}\.\d{2})`
at one position; yields `f"{group(1)} - {group(2)}"` (main.py lines 145–147). -/
def matchPeriodAt (cs : List Char) : Option (List Char) :=
  (litMatch "Beschäftigungsjahr".data cs).bind fun cs1 =>
    let w0 := cs1.takeWhile Txt.isWS
    let cs2 := cs1.dropWhile Txt.isWS
    match w0, cs2 with
    | [], _ => none
    | _ :: _, a :: b :: c :: d :: cs3 =>
      if a.isDigit && b.isDigit && c.isDigit && d.isDigit then
        let w1 := cs3.takeWhile Txt.isWS
        let cs4 := cs3.dropWhile Txt.isWS
        if w1 = [] then none else
        (litMatch "vom".data cs4).bind fun cs5 =>
          let w2 := cs5.takeWhile Txt.isWS
          let cs6 := cs5.dropWhile Txt.isWS
          if w2 = [] then none else
          (matchDDdotDD cs6).bind fun (g1, cs7) =>
            let w3 := cs7.takeWhile Txt.isWS
            let cs8 := cs7.dropWhile Txt.isWS
            if w3 = [] then none else
            (litMatch "bis".data cs8).bind fun cs9 =>
              let w4 := cs9.takeWhile Txt.isWS
              let cs10 := cs9.dropWhile Txt.isWS
              if w4 = [] then none else
              (matchDDdotDD cs10).map fun (g2, _) => g1 ++ " - ".data ++ g2
      else none
    | _, _ => none

def periodScan (text : List Char) : Option (List Char) := searchSuffixes matchPeriodAt text

/-- The `[\d\.,]` character class of the currency patterns. -/
def isCurrencyChar (c : Char) : Bool := c.isDigit || c = '.' || c = ','

/-- `LABEL\s+([\d\.,]+)` at one position (main.py lines 150, 159, 168). -/
def matchCurrencyAt (label : List Char) (cs : List Char) : Option (List Char) :=
  (litMatch label cs).bind fun cs1 =>
    let w0 := cs1.takeWhile Txt.isWS
    let cs2 := cs1.dropWhile Txt.isWS
    let tok := cs2.takeWhile isCurrencyChar
    if w0 ≠ [] && tok ≠ [] then some tok else none

def currencyScan (label : List Char) (text : List Char) : Option (List Char) :=
  searchSuffixes (matchCurrencyAt label) text

/-- The bare `(\d{4})` fallback-year pattern (main.py line 178): the leftmost
position with four consecutive digits. -/
def matchYear4At : List Char → Option Int
  | a :: b :: c :: d :: _ =>
    if a.isDigit && b.isDigit && c.isDigit && d.isDigit then
      some ((Txt.digitsToNat [a, b, c, d] : Nat) : Int)
    else none
  | _ => none

def fallbackYearScan (text : List Char) : Option Int := searchSuffixes matchYear4At text

/-- `.replace('.', '').replace(',', '.')` (main.py line 152). -/
def germanConvert (cs : List Char) : List Char :=
  (cs.filter (· ≠ '.')).map fun c => if c = ',' then '.' else c

/-- Python `float(s)` on the strings arising from `germanConvert` (digits and
at most dots): `[digits] ['.' digits]`, at least one digit, nothing else;
the value is exact as a rational. -/
def pyFloatOfString (cs : List Char) : Option Rat :=
  let intPart := cs.takeWhile Char.isDigit
  let rest := cs.dropWhile Char.isDigit
  match rest with
  | [] => if intPart = [] then none else some ((Txt.digitsToNat intPart : Nat) : Rat)
  | '.' :: rest2 =>
    let fracPart := rest2.takeWhile Char.isDigit
    let rest3 := rest2.dropWhile Char.isDigit
    if rest3 = [] ∧ (intPart ≠ [] ∨ fracPart ≠ []) then
      some (mkRat (Txt.digitsToNat (intPart ++ fracPart)) (10 ^ fracPart.length))
    else none
  | _ => none

end Extractor

namespace Extractor

/-! ### The employer patterns (main.py lines 103–125), under `re.IGNORECASE` -/

/-- One lookahead branch of an employer pattern.  In each branch the part after
`\s+` starts with a non-whitespace class, so the `\s+` inside the lookahead is
deterministic maximal munch. -/
inductive LookB where
  /-- `\s+LITERAL` (literal stored lower-case) -/
  | litWS (lit : List Char)
  /-- `\s+\d{4}` -/
  | digits4WS
  /-- `\s+[A-Z]` under `IGNORECASE`, i.e. any ASCII letter -/
  | alphaWS
  /-- `\s*$` -/
  | wsEnd
  /-- `$` -/
  | atEnd
  deriving Repr

def lookBranch : LookB → List Char → Bool
  | .litWS lit, cs =>
    let n := (cs.takeWhile Txt.isWS).length
    decide (1 ≤ n) && (litMatchCI lit (cs.drop n)).isSome
  | .digits4WS, cs =>
    let n := (cs.takeWhile Txt.isWS).length
    decide (1 ≤ n) &&
      (match cs.drop n with
       | a :: b :: c :: d :: _ => a.isDigit && b.isDigit && c.isDigit && d.isDigit
       | _ => false)
  | .alphaWS, cs =>
    let n := (cs.takeWhile Txt.isWS).length
    decide (1 ≤ n) &&
      (match cs.drop n with
       | c :: _ => c.isAlpha
       | [] => false)
  | .wsEnd, cs => cs.all Txt.isWS
  | .atEnd, cs => cs.isEmpty

/-- A `(?= A | B | ... )` lookahead: zero-width, so only satisfiability at the
current position matters (branch order cannot be observed). -/
def lookOk (branches : List LookB) (cs : List Char) : Bool :=
  branches.any (lookBranch · cs)

/-- The class `[A-Za-z\s]` of the lazy employer group (`IGNORECASE` adds
nothing: both letter cases are present). -/
def classAlphaWS (c : Char) : Bool := c.isAlpha || Txt.isWS c

/-- Consume `LIT₁ (\s+ LIT₂)*` case-insensitively, stopping right after the
last literal.  The inter-literal `\s+` is deterministic because every literal
starts with a non-whitespace character. -/
def consumeLits : List (List Char) → List Char → Option (List Char)
  | [], cs => some cs
  | [l] , cs => litMatchCI l cs
  | l :: l2 :: ls, cs =>
    (litMatchCI l cs).bind fun cs1 =>
      let n := (cs1.takeWhile Txt.isWS).length
      if n = 0 then none else consumeLits (l2 :: ls) (cs1.drop n)

/-- `\s+([A-Za-z\s]+?)(?=LOOK)` starting right after the last literal, in
Python's backtracking order: the greedy `\s+` tries its longest run first
(`k = n, n-1, …, 1`), and for each `k` the lazy group grows from one character
(`g = 1, 2, …`); the first success is the match. -/
def empGroup (look : List LookB) (cs : List Char) : Option (List Char) :=
  let n := (cs.takeWhile Txt.isWS).length
  (List.range n).findSome? fun i =>
    let k := n - i
    let cs1 := cs.drop k
    let m := (cs1.takeWhile classAlphaWS).length
    (List.range m).findSome? fun j =>
      let g := j + 1
      if lookOk look (cs1.drop g) then some (cs1.take g) else none

def matchEmpPatternAt (lits : List (List Char)) (look : List LookB) (cs : List Char) :
    Option (List Char) :=
  (consumeLits lits cs).bind (empGroup look)

def searchEmpPattern (lits : List (List Char)) (look : List LookB) (text : List Char) :
    Option (List Char) :=
  searchSuffixes (matchEmpPatternAt lits look) text

/-- The ten `employer_patterns` of main.py lines 103–114, in order, with
literals lower-cased for the `IGNORECASE` matcher. -/
def employerPatterns : List (List (List Char) × List LookB) :=
  [ (["arbeitgeber".data, "name des arbeitgebers".data], [.litWS "betroffenes jahr".data, .atEnd]),
    (["arbeitgeber".data], [.litWS "betroffenes jahr".data, .atEnd]),
    (["name des arbeitgebers".data], [.litWS "betroffenes jahr".data, .atEnd]),
    (["arbeitgeber".data], [.litWS "steuerklasse".data, .atEnd]),
    (["arbeitgeber".data], [.litWS "identifikationsnummer".data, .atEnd]),
    (["arbeitgeber".data], [.litWS "bruttoarbeitslohn".data, .atEnd]),
    (["arbeitgeber".data], [.litWS "einbehaltene".data, .atEnd]),
    (["arbeitgeber".data], [.digits4WS, .atEnd]),
    (["arbeitgeber".data], [.alphaWS, .atEnd]),
    (["arbeitgeber".data], [.wsEnd]) ]

/-- `group(1).strip()`, `re.sub(r'\s+', ' ', ·)`, `.strip()`
(main.py lines 119–122). -/
def cleanEmployerName (g : List Char) : List Char :=
  Txt.stripBoth (Txt.collapse (Txt.stripBoth g))

/-- The employer pattern loop (main.py lines 116–125): first pattern whose
match cleans up to a name longer than 2 characters wins; a pattern that
matches but cleans to something shorter does **not** stop the loop. -/
def employerScan (text : List Char) : Option String :=
  employerPatterns.findSome? fun p =>
    match searchEmpPattern p.1 p.2 text with
    | some g =>
      let nm := cleanEmployerName g
      if 2 < nm.length then some (String.mk nm) else none
    | none => none

/-! ### The record and the parse function -/

/-- The result dict of `parse_german_tax_document` (main.py lines 83–92).
Currency fields are Python ints-or-floats, embedded as exact rationals. -/
structure ParseResult where
  bruttolohn : Rat
  lohnsteuer : Rat
  solidaritaetszuschlag : Rat
  employer : String
  name : String
  year : Option Int
  steuerklasse : Option Int
  beschaeftigungszeitraum : Option String
  deriving DecidableEq, Repr

/-- The initial `result` dict with its per-field defaults. -/
def initResult : ParseResult :=
  ⟨0, 0, 0, "Unknown", "User", none, none, none⟩

/-- The body of the `try:` block of `parse_german_tax_document` (main.py lines
94–183).  The function's only parameter is `text`; the name `filename` on line
130 is unbound, so reaching the filename-fallback branch raises `NameError`,
carrying the partially-filled result (which the `except` handler returns). -/
def parseBody (text : List Char) : Except (PyErr × ParseResult) ParseResult :=
  let r0 := initResult
  let r1 :=
    match yearScan text with
    | some y => { r0 with year := some y }
    | none => r0
  let r2 :=
    match employerScan text with
    | some e => { r1 with employer := e }
    | none => r1
  if r2.employer = "Unknown" then
    -- `re.search(r'([A-Za-z\s]+?)_\d{4}', filename)`: NameError on `filename`
    .error (.nameError, r2)
  else
    let r3 :=
      match nameScan text with
      | some cap => { r2 with name := "User " ++ String.mk cap }
      | none => r2
    let r4 :=
      match steuerklasseScan text with
      | some k => { r3 with steuerklasse := some k }
      | none => r3
    let r5 :=
      match periodScan text with
      | some p => { r4 with beschaeftigungszeitraum := some (String.mk p) }
      | none => r4
    let r6 :=
      match currencyScan "Bruttoarbeitslohn".data text with
      | some tok =>
        match pyFloatOfString (germanConvert tok) with
        | some q => { r5 with bruttolohn := q }
        | none => r5         -- except ValueError: pass
      | none => r5
    let r7 :=
      match currencyScan "einbehaltene Lohnsteuer".data text with
      | some tok =>
        match pyFloatOfString (germanConvert tok) with
        | some q => { r6 with lohnsteuer := q }
        | none => r6
      | none => r6
    let r8 :=
      match currencyScan "einbehaltener Solidaritätszuschlag".data text with
      | some tok =>
        match pyFloatOfString (germanConvert tok) with
        | some q => { r7 with solidaritaetszuschlag := q }
        | none => r7
      | none => r7
    let r9 :=
      -- `if not result["year"]:` — falsy means None or 0
      if (match r8.year with | none => true | some y => y = 0) then
        match fallbackYearScan text with
        | some y => { r8 with year := some y }
        | none => r8
      else r8
    .ok r9

/-- `parse_german_tax_document`, as its caller sees it: the `except Exception`
handler (main.py lines 185–187) returns the partial `result`, so no exception
escapes. -/
def parse_german_tax_documentE (text : String) : Except PyErr ParseResult :=
  match parseBody text.data with
  | .ok r => .ok r
  | .error (_, r) => .ok r

/-- The value `parse_german_tax_document` returns. -/
def parse_german_tax_document (text : String) : ParseResult :=
  match parseBody text.data with
  | .ok r => r
  | .error (_, r) => r

end Extractor

/-! ## Theorems: the claims C1-C10 and their supporting lemmas -/

/-- Unfolding equation for `is_below_threshold` on a `user_data` dict whose
`year` and `gross_income` keys are present. -/
theorem is_below_threshold_eq (y g : PyVal) (i : Option PyVal) :
    Advisor.is_below_threshold ⟨some y, some g, i⟩ =
      match y.toIntPy with
      | none => .ok false
      | some n =>
        match Advisor.TAX_FREE_THRESHOLDS n with
        | none => .ok false
        | some t => if g = PyVal.vNone then .ok false else Advisor.pyLtInt g t := rfl

/-- **C1.** `_is_below_threshold` returns `True` iff the record's `taxYear`
converts (`int(year)`) to a key of `TAX_FREE_THRESHOLDS` and `grossIncome` is a
non-null number strictly below the threshold for that year; any year outside the
table (e.g. 1999) yields `False` regardless of income; `taxYear=2021` with
`grossIncome=5000` yields `True` and with `grossIncome=15000` yields `False`. -/
theorem is_below_threshold_spec :
    (∀ (y g : PyVal) (i : Option PyVal),
      Advisor.is_below_threshold ⟨some y, some g, i⟩ = .ok true ↔
        ∃ n t q, y.toIntPy = some n ∧ Advisor.TAX_FREE_THRESHOLDS n = some t ∧
          g.numVal = some q ∧ q < (t : Rat))
    ∧ (∀ (y g : PyVal) (i : Option PyVal) (n : Int), y.toIntPy = some n →
        Advisor.TAX_FREE_THRESHOLDS n = none →
        Advisor.is_below_threshold ⟨some y, some g, i⟩ = .ok false)
    ∧ Advisor.is_below_threshold ⟨some (.vInt 2021), some (.vInt 5000), none⟩ = .ok true
    ∧ Advisor.is_below_threshold ⟨some (.vInt 2021), some (.vInt 15000), none⟩ = .ok false := by
  refine ⟨?_, ?_, by decide, by decide⟩
  · intro y g i
    cases hy : y.toIntPy with
    | none => simp [is_below_threshold_eq, hy]
    | some n =>
      cases ht : Advisor.TAX_FREE_THRESHOLDS n with
      | none => simp [is_below_threshold_eq, hy, ht]
      | some t =>
        cases g with
        | vNone => simp [is_below_threshold_eq, hy, ht, PyVal.numVal]
        | vStr s => simp [is_below_threshold_eq, hy, ht, PyVal.numVal, Advisor.pyLtInt]
        | vInt m =>
          simp [is_below_threshold_eq, hy, ht, PyVal.numVal, Advisor.pyLtInt]
          constructor <;> intro h <;> exact_mod_cast h
        | vFloat q =>
          simp [is_below_threshold_eq, hy, ht, PyVal.numVal, Advisor.pyLtInt]
  · intro y g i n hy ht
    cases g <;> simp [is_below_threshold_eq, hy, ht, Advisor.pyLtInt]

/-- Witness for C1: the unknown year 1999 (stored as the string `"1999"`, which
`int()` converts to 1999) yields `False` even for a tiny income. -/
theorem is_below_threshold_spec_witness :
    Advisor.is_below_threshold ⟨some (.vStr "1999"), some (.vInt 1), none⟩ = .ok false :=
  is_below_threshold_spec.2.1 (.vStr "1999") (.vInt 1) none 1999 (by decide) (by decide)

theorem containsSub_of_isPrefixOf {n h : List Char} (hp : n.isPrefixOf h = true) :
    containsSub n h = true := by
  cases h with
  | nil =>
    cases n with
    | nil => rfl
    | cons c t => simp [List.isPrefixOf] at hp
  | cons c t => simp [containsSub, hp]

theorem containsSub_append_left {n h : List Char} (a : List Char)
    (hc : containsSub n h = true) : containsSub n (a ++ h) = true := by
  induction a with
  | nil => simpa using hc
  | cons c a ih => simp [containsSub, ih]

theorem isPrefixOf_self_append (n r : List Char) : n.isPrefixOf (n ++ r) = true := by
  induction n with
  | nil => simp [List.isPrefixOf]
  | cons c t ih => simp [List.isPrefixOf, ih]

theorem exists_append_of_isPrefixOf :
    ∀ {n m : List Char}, n.isPrefixOf m = true → ∃ d, m = n ++ d := by
  intro n
  induction n with
  | nil => exact fun {m} _ => ⟨m, rfl⟩
  | cons c t ih =>
    intro m hp
    cases m with
    | nil => simp [List.isPrefixOf] at hp
    | cons d m' =>
      simp only [List.isPrefixOf, Bool.and_eq_true, beq_iff_eq] at hp
      obtain ⟨rfl, hp2⟩ := hp
      obtain ⟨e, he⟩ := ih hp2
      exact ⟨e, by rw [he]; rfl⟩

theorem containsSub_self_append (n r : List Char) : containsSub n (n ++ r) = true :=
  containsSub_of_isPrefixOf (isPrefixOf_self_append n r)

/-- `n` occurs in `a ++ (n ++ b)`. -/
theorem strContains_mid (n a b : String) : strContains n (a ++ (n ++ b)) = true := by
  unfold strContains
  rw [String.data_append, String.data_append]
  exact containsSub_append_left a.data (containsSub_self_append n.data b.data)

/-- If `n` is a literal prefix of `m`, then `n` occurs in `a ++ (m ++ b)`. -/
theorem strContains_mid_of_isPrefixOf {n m : String} (a b : String)
    (hp : n.data.isPrefixOf m.data = true) : strContains n (a ++ (m ++ b)) = true := by
  unfold strContains
  rw [String.data_append, String.data_append]
  refine containsSub_append_left a.data ?_
  obtain ⟨d, hd⟩ := exists_append_of_isPrefixOf hp
  rw [hd, List.append_assoc]
  exact containsSub_self_append n.data (d ++ b.data)

theorem strContains_self_append (n b : String) : strContains n (n ++ b) = true := by
  unfold strContains
  rw [String.data_append]
  exact containsSub_self_append n.data b.data

theorem strContains_append_left {n h : String} (a : String)
    (hc : strContains n h = true) : strContains n (a ++ h) = true := by
  unfold strContains at *
  rw [String.data_append]
  exact containsSub_append_left a.data hc

/-- If `n` is a literal prefix of `m`, then `n` occurs in `m ++ b`. -/
theorem strContains_of_prefixOf {n m : String} (b : String)
    (hp : n.data.isPrefixOf m.data = true) : strContains n (m ++ b) = true := by
  unfold strContains
  rw [String.data_append]
  obtain ⟨d, hd⟩ := exists_append_of_isPrefixOf hp
  rw [hd, List.append_assoc]
  exact containsSub_self_append n.data (d ++ b.data)

/-- **C7 counterexample.**  A record whose `year` reached `user_data` as the
string `"2021"` (as the LLM-extraction path can produce) satisfies
`_is_below_threshold`, yet `next_advisor_message` raises `KeyError` (the dict
subscript in `_early_exit_summary` uses the raw string key) instead of
returning the early-exit refund statement. -/
theorem next_advisor_message_c7_cex :
    Advisor.is_below_threshold ⟨some (.vStr "2021"), some (.vInt 5000), some (.vInt 16)⟩ = .ok true
    ∧ Advisor.next_advisor_message
        ⟨[], ⟨none, none, none, none, none, none, none, none⟩,
         ⟨some (.vStr "2021"), some (.vInt 5000), some (.vInt 16)⟩, []⟩ (.ok (some "q"))
      = .error .keyError := by
  constructor
  · decide
  · decide

/-- **C7 (amended).**  Whenever `_is_below_threshold` holds *and* the stored
year is an `int` *and* the stored `income_tax_paid` is a number (so the `.2f`
conversion is defined), every invocation of `next_advisor_message` — for any
oracle behaviour — returns the early-exit refund statement, which quotes the
full `incomeTaxPaid` and the year's threshold, and leaves the state (in
particular the history) unchanged, without advancing to summarization or
questioning. -/
theorem next_advisor_message_early_exit (st : Advisor.AdvisorState)
    (oracle : Except PyErr (Option String)) (n : Int) (rs : String)
    (hyear : st.user_data.year = some (.vInt n))
    (hbelow : Advisor.is_below_threshold st.user_data = .ok true)
    (hfmt : fmtFixed2 (st.user_data.income_tax_paid.getD (.vInt 0)) = some rs) :
    ∃ t s, Advisor.TAX_FREE_THRESHOLDS n = some t
      ∧ Advisor.early_exit_summary st.user_data = .ok s
      ∧ Advisor.next_advisor_message st oracle = .ok (s, st)
      ∧ strContains ("€" ++ rs) s = true
      ∧ strContains ("€" ++ fmtComma0 t) s = true := by
  obtain ⟨t, ht⟩ : ∃ t, Advisor.TAX_FREE_THRESHOLDS n = some t := by
    cases h : Advisor.TAX_FREE_THRESHOLDS n with
    | none =>
      exfalso
      simp [Advisor.is_below_threshold, hyear, PyVal.toIntPy, h] at hbelow
    | some t => exact ⟨t, rfl⟩
  have hs : Advisor.early_exit_summary st.user_data =
      .ok (("Your gross income in " ++ pyStrRepr (.vInt n) ++ " is below the tax-free threshold of ")
        ++ (("€" ++ fmtComma0 t)
        ++ ((".\nYou are likely eligible for a full refund of your paid income tax: **")
        ++ (("€" ++ rs)
        ++ "**.\nWe don’t need further details. ✅\n\nWould you like to file a tax return for another year?")))) := by
    simp [Advisor.early_exit_summary, hyear, Advisor.thresholdsLookupPy, ht, hfmt]
  refine ⟨t, _, ht, hs, ?_, ?_, ?_⟩
  · simp [Advisor.next_advisor_message, hbelow, hs]
  · refine strContains_append_left _ ?_
    refine strContains_append_left _ ?_
    refine strContains_append_left _ ?_
    exact strContains_self_append _ _
  · refine strContains_append_left _ ?_
    exact strContains_self_append _ _

/-- Witness for C7 (amended): a 2021 record with gross income 5000 and
income tax paid 16.75 (`mkRat 67 4`) gets the refund statement quoting €16.75 and €9,744. -/
theorem next_advisor_message_early_exit_witness :
    ∃ t s, Advisor.TAX_FREE_THRESHOLDS 2021 = some t
      ∧ Advisor.early_exit_summary ⟨some (.vInt 2021), some (.vInt 5000), some (.vFloat (mkRat 67 4))⟩ = .ok s
      ∧ Advisor.next_advisor_message
          ⟨[], ⟨none, none, none, none, none, none, none, none⟩,
           ⟨some (.vInt 2021), some (.vInt 5000), some (.vFloat (mkRat 67 4))⟩, []⟩ (.ok (some "q"))
        = .ok (s, ⟨[], ⟨none, none, none, none, none, none, none, none⟩,
           ⟨some (.vInt 2021), some (.vInt 5000), some (.vFloat (mkRat 67 4))⟩, []⟩)
      ∧ strContains ("€" ++ "16.75") s = true
      ∧ strContains ("€" ++ fmtComma0 t) s = true :=
  next_advisor_message_early_exit
    ⟨[], ⟨none, none, none, none, none, none, none, none⟩,
     ⟨some (.vInt 2021), some (.vInt 5000), some (.vFloat (mkRat 67 4))⟩, []⟩
    (.ok (some "q")) 2021 "16.75" rfl (by decide) (by decide)

/-- **C8 counterexample.**  In the questioning phase (record above threshold, a
summary already in history), a *failing* oracle call is not absorbed: the
exception propagates out of `next_advisor_message` instead of the sentinel
being returned. -/
theorem next_advisor_message_c8_cex :
    Advisor.next_advisor_message
        ⟨[⟨"assistant", "Here’s a quick summary of your  2021 tax data:"⟩],
         ⟨none, none, none, none, none, none, none, none⟩,
         ⟨some (.vInt 2021), some (.vInt 15000), some (.vInt 16)⟩, []⟩
        (.error .serviceError)
      = .error .serviceError
    ∧ ∀ p : String × Advisor.AdvisorState,
        Advisor.next_advisor_message
          ⟨[⟨"assistant", "Here’s a quick summary of your  2021 tax data:"⟩],
           ⟨none, none, none, none, none, none, none, none⟩,
           ⟨some (.vInt 2021), some (.vInt 15000), some (.vInt 16)⟩, []⟩
          (.error .serviceError)
        ≠ .ok p := by
  refine ⟨by decide, ?_⟩
  intro p hp
  rw [(by decide : Advisor.next_advisor_message
        ⟨[⟨"assistant", "Here’s a quick summary of your  2021 tax data:"⟩],
         ⟨none, none, none, none, none, none, none, none⟩,
         ⟨some (.vInt 2021), some (.vInt 15000), some (.vInt 16)⟩, []⟩
        (.error .serviceError)
      = .error .serviceError)] at hp
  exact Except.noConfusion hp

/-- **C8 (amended).**  In the questioning phase, an oracle call that *returns*
empty content (`None` or `""`) yields the fixed sentinel `"[No response from
advisor]"` and leaves the state — in particular the history — unchanged;
an oracle call that *raises* propagates its exception unchanged. -/
theorem next_advisor_message_oracle_empty (st : Advisor.AdvisorState)
    (hnb : Advisor.is_below_threshold st.user_data = .ok false)
    (hsum : Advisor.hasSummaryMsg st.conversation_history = true) :
    Advisor.next_advisor_message st (.ok none) = .ok ("[No response from advisor]", st)
    ∧ Advisor.next_advisor_message st (.ok (some "")) = .ok ("[No response from advisor]", st)
    ∧ ∀ e, Advisor.next_advisor_message st (.error e) = .error e := by
  refine ⟨?_, ?_, fun e => ?_⟩ <;>
    simp [Advisor.next_advisor_message, hnb, hsum]

/-- Witness for C8 (amended): a concrete questioning-phase state. -/
theorem next_advisor_message_oracle_empty_witness :
    Advisor.next_advisor_message
        ⟨[⟨"assistant", "Here’s a quick summary of your  2021 tax data:"⟩],
         ⟨none, none, none, none, none, none, none, none⟩,
         ⟨some (.vInt 2021), some (.vInt 15000), some (.vInt 16)⟩, []⟩
        (.ok none)
      = .ok ("[No response from advisor]",
        ⟨[⟨"assistant", "Here’s a quick summary of your  2021 tax data:"⟩],
         ⟨none, none, none, none, none, none, none, none⟩,
         ⟨some (.vInt 2021), some (.vInt 15000), some (.vInt 16)⟩, []⟩) :=
  (next_advisor_message_oracle_empty
    ⟨[⟨"assistant", "Here’s a quick summary of your  2021 tax data:"⟩],
     ⟨none, none, none, none, none, none, none, none⟩,
     ⟨some (.vInt 2021), some (.vInt 15000), some (.vInt 16)⟩, []⟩
    (by decide) (by decide)).1

/-- **C9.**  On a session whose record is not below threshold and whose history
does not yet contain the summary marker (in particular a fresh session), the
call returns the formatted data summary and *inserts it at position 0* of
history, so it is the first entry even when earlier turns exist; the emitted
summary contains the marker, so it is emitted at most once — the next call (for
a non-empty oracle reply) proceeds to the questioning phase and appends the
reply instead. -/
theorem next_advisor_message_summary_first (st : Advisor.AdvisorState)
    (oracle : Except PyErr (Option String))
    (hnb : Advisor.is_below_threshold st.user_data = .ok false)
    (hsum : Advisor.hasSummaryMsg st.conversation_history = false)
    (hfb : st.extracted_data.fallback = none)
    (hok : (Advisor.build_initial_summary st.extracted_data).isOk = true) :
    ∃ sm, Advisor.build_initial_summary st.extracted_data = .ok sm
      ∧ Advisor.next_advisor_message st oracle =
          .ok (sm, { st with conversation_history := ⟨"assistant", sm⟩ :: st.conversation_history })
      ∧ strContains Advisor.summaryMarker sm = true
      ∧ Advisor.hasSummaryMsg (⟨"assistant", sm⟩ :: st.conversation_history) = true
      ∧ ∀ r : String, r ≠ "" →
          Advisor.next_advisor_message
              { st with conversation_history := ⟨"assistant", sm⟩ :: st.conversation_history }
              (.ok (some r)) =
            .ok (r, { st with conversation_history :=
              (⟨"assistant", sm⟩ :: st.conversation_history) ++ [⟨"assistant", r⟩] }) := by
  obtain ⟨sm, hsm⟩ : ∃ sm, Advisor.build_initial_summary st.extracted_data = .ok sm := by
    cases h : Advisor.build_initial_summary st.extracted_data with
    | ok s => exact ⟨s, rfl⟩
    | error e => rw [h] at hok; simp [Except.isOk, Except.toBool] at hok
  have hmark : strContains Advisor.summaryMarker sm = true := by
    rcases hin : fmtCommaFixed2 (st.extracted_data.gross_income.getD (.vInt 0)) with _ | istr
    · simp [Advisor.build_initial_summary, hfb, hin] at hsm
    · rcases htx : fmtCommaFixed2 (st.extracted_data.income_tax_paid.getD (.vInt 0)) with _ | tstr
      · simp [Advisor.build_initial_summary, hfb, hin, htx] at hsm
      · have hlit : sm = "Here’s a quick summary of your  "
            ++ (pyStrRepr (st.extracted_data.year.getD (.vStr "unknown")) ++ (" tax data:\n\n"
            ++ ("👤 **Name:** " ++ (pyStrRepr (st.extracted_data.full_name.getD (.vStr "N/A"))
            ++ ("\n🏠 **Address:** " ++ (pyStrRepr (st.extracted_data.address.getD (.vStr "N/A"))
            ++ ("\n🏢 **Employer:** " ++ (pyStrRepr (st.extracted_data.employer.getD (.vStr "N/A"))
            ++ ("\n⏱️ **Hours Worked:** " ++ (pyStrRepr (st.extracted_data.total_hours.getD (.vStr "not specified"))
            ++ ("\n💶 **Gross Income:** €" ++ (istr
            ++ ("\n💰 **Income Tax Paid:** €" ++ (tstr
            ++ "\n\nLet’s begin with a few quick questions to see what deductions you might qualify for. 😊")))))))))))))) := by
          have := hsm
          simp [Advisor.build_initial_summary, hfb, hin, htx] at this
          exact this.symm
        rw [hlit]
        exact strContains_of_prefixOf _ (by decide)
  refine ⟨sm, hsm, ?_, hmark, ?_, ?_⟩
  · simp [Advisor.next_advisor_message, hnb, hsum, hsm]
  · simp [Advisor.hasSummaryMsg, strContains] at hmark ⊢
    exact Or.inl hmark
  · intro r hr
    have hsum' : Advisor.hasSummaryMsg (⟨"assistant", sm⟩ :: st.conversation_history) = true := by
      simp [Advisor.hasSummaryMsg, strContains] at hmark ⊢
      exact Or.inl hmark
    simp [Advisor.next_advisor_message, hnb, hsum', hr]

/-- Witness for C9: a fresh session (empty history) with a 2021 record whose
gross income 15000 is above the threshold. -/
theorem next_advisor_message_summary_first_witness :
    ∃ sm, Advisor.build_initial_summary
        ⟨none, none, none, none, none, some (.vInt 15000), none, some (.vInt 2021)⟩ = .ok sm
      ∧ Advisor.next_advisor_message
          ⟨[], ⟨none, none, none, none, none, some (.vInt 15000), none, some (.vInt 2021)⟩,
           ⟨some (.vInt 2021), some (.vInt 15000), some (.vInt 16)⟩, [2021]⟩
          (.ok (some "What is your profession?")) =
        .ok (sm, ⟨[⟨"assistant", sm⟩],
          ⟨none, none, none, none, none, some (.vInt 15000), none, some (.vInt 2021)⟩,
          ⟨some (.vInt 2021), some (.vInt 15000), some (.vInt 16)⟩, [2021]⟩)
      ∧ strContains Advisor.summaryMarker sm = true
      ∧ Advisor.hasSummaryMsg [⟨"assistant", sm⟩] = true
      ∧ ∀ r : String, r ≠ "" →
          Advisor.next_advisor_message
              ⟨[⟨"assistant", sm⟩],
               ⟨none, none, none, none, none, some (.vInt 15000), none, some (.vInt 2021)⟩,
               ⟨some (.vInt 2021), some (.vInt 15000), some (.vInt 16)⟩, [2021]⟩
              (.ok (some r)) =
            .ok (r, ⟨[⟨"assistant", sm⟩] ++ [⟨"assistant", r⟩],
              ⟨none, none, none, none, none, some (.vInt 15000), none, some (.vInt 2021)⟩,
              ⟨some (.vInt 2021), some (.vInt 15000), some (.vInt 16)⟩, [2021]⟩) :=
  next_advisor_message_summary_first
    ⟨[], ⟨none, none, none, none, none, some (.vInt 15000), none, some (.vInt 2021)⟩,
     ⟨some (.vInt 2021), some (.vInt 15000), some (.vInt 16)⟩, [2021]⟩
    (.ok (some "What is your profession?")) (by decide) (by decide) rfl (by decide)

/-- **C4.**  Totality of the field extractor and the threshold evaluator: for
every input text the extractor returns a record (the catch-all `except`
swallows any exception from the body, including the `NameError` of the
filename branch), the empty text yields the all-default record (0 currency
fields, "Unknown" employer, "User" name, `None` year/taxClass/period); and
`_is_below_threshold` returns a boolean for every record over the data model's
field domain (`grossIncome` a number or null). -/
theorem extractor_and_threshold_total :
    (∀ text : String, ∃ r, Extractor.parse_german_tax_documentE text = .ok r)
    ∧ Extractor.parse_german_tax_documentE "" = .ok Extractor.initResult
    ∧ (∀ d : Advisor.UserData, (d.gross_income.getD (.vInt 0)).numericOrNone = true →
        ∃ b, Advisor.is_below_threshold d = .ok b) := by
  refine ⟨?_, by decide, ?_⟩
  · intro text
    unfold Extractor.parse_german_tax_documentE
    rcases Extractor.parseBody text.data with ⟨e, r⟩ | r
    · exact ⟨r, rfl⟩
    · exact ⟨r, rfl⟩
  · intro d hnum
    rcases d with ⟨y, g, i⟩
    simp only [Advisor.is_below_threshold]
    rcases hyv : (y.getD PyVal.vNone).toIntPy with _ | n
    · exact ⟨false, rfl⟩
    · rcases ht : Advisor.TAX_FREE_THRESHOLDS n with _ | t
      · exact ⟨false, by simp [ht]⟩
      · rcases hg : g.getD (PyVal.vInt 0) with _ | m | s | q
        · exact ⟨false, by simp [ht]⟩
        · exact ⟨decide (m < (t : Int)), by simp [ht, Advisor.pyLtInt]⟩
        · rw [hg] at hnum; simp [PyVal.numericOrNone] at hnum
        · exact ⟨decide (q < (t : Rat)), by simp [ht, Advisor.pyLtInt]⟩

/-- Witness for C4: a concrete record over the data-model domain. -/
theorem extractor_and_threshold_total_witness :
    ∃ b, Advisor.is_below_threshold
      ⟨some (.vInt 2024), some (.vFloat (mkRat 67 4)), none⟩ = .ok b :=
  extractor_and_threshold_total.2.2
    ⟨some (.vInt 2024), some (.vFloat (mkRat 67 4)), none⟩ (by decide)

/-- **C5.**  On a text where every employer pattern fails, the code does *not*
derive the employer from the filename: `parse_german_tax_document` has no
`filename` in scope (its only parameter is `text`), so line 130 raises
`NameError`, the catch-all returns the partial record, and the employer stays
"Unknown". -/
theorem employer_filename_fallback_bug :
    Extractor.employerScan "Bruttoarbeitslohn 2.033,00".data = none
    ∧ Extractor.parseBody "Bruttoarbeitslohn 2.033,00".data =
        .error (.nameError, Extractor.initResult)
    ∧ (Extractor.parse_german_tax_document "Bruttoarbeitslohn 2.033,00").employer = "Unknown" := by
  refine ⟨by decide, by decide, by decide⟩

/-- **C6.**  The conversion itself follows the German numeral convention
(strip `.`, then `,` → `.`; failure leaves the zero default in place without
raising), but an input containing only `Bruttoarbeitslohn 2.033,00` yields
`grossIncome = 0`, not 2033.00: the employer patterns all fail on it, and the
`NameError` of the filename-fallback branch aborts extraction before the
currency step.  With an employer present the claimed value 2033.00 appears. -/
theorem currency_conversion_bug :
    Extractor.germanConvert "2.033,00".data = "2033.00".data
    ∧ Extractor.pyFloatOfString "2033.00".data = some 2033
    ∧ (Extractor.parse_german_tax_document "Bruttoarbeitslohn 2.033,00").bruttolohn = 0
    ∧ (Extractor.parse_german_tax_document
        "Arbeitgeber Acme GmbH Bruttoarbeitslohn 2.033,00").bruttolohn = 2033
    ∧ Extractor.parse_german_tax_documentE "Arbeitgeber Acme GmbH Bruttoarbeitslohn ,,," =
        .ok { Extractor.initResult with employer := "Acme GmbH" } := by
  refine ⟨by decide, by decide, by decide, by decide, by decide⟩

/-- **C10.**  Whenever the employer pattern loop produces nothing, the
filename-fallback branch's unbound `filename` raises `NameError`, so the
returned record keeps the year found by the primary scan but has identity
label, tax class, employment period, all three currency fields, and the
fallback-scanned year at their defaults — regardless of what the text
contains for those fields. -/
theorem employer_fallback_aborts (text : String)
    (hemp : Extractor.employerScan text.data = none) :
    Extractor.parseBody text.data =
      .error (.nameError, { Extractor.initResult with year := Extractor.yearScan text.data })
    ∧ Extractor.parse_german_tax_document text =
      { Extractor.initResult with year := Extractor.yearScan text.data } := by
  rcases hy : Extractor.yearScan text.data with _ | y <;>
    constructor <;>
      simp [Extractor.parseBody, Extractor.parse_german_tax_document, Extractor.initResult,
        hemp, hy]

/-- Witness for C10: a text that *does* contain a parseable tax class and
gross income but no employer; everything except the primary year stays at its
default. -/
theorem employer_fallback_aborts_witness :
    Extractor.parseBody "Veranlagungszeitraum: 20.21 Steuerklasse 1 Bruttoarbeitslohn 2.033,00".data =
      .error (.nameError, { Extractor.initResult with
        year := Extractor.yearScan "Veranlagungszeitraum: 20.21 Steuerklasse 1 Bruttoarbeitslohn 2.033,00".data })
    ∧ Extractor.parse_german_tax_document "Veranlagungszeitraum: 20.21 Steuerklasse 1 Bruttoarbeitslohn 2.033,00" =
      { Extractor.initResult with
        year := Extractor.yearScan "Veranlagungszeitraum: 20.21 Steuerklasse 1 Bruttoarbeitslohn 2.033,00".data } :=
  employer_fallback_aborts
    "Veranlagungszeitraum: 20.21 Steuerklasse 1 Bruttoarbeitslohn 2.033,00" (by decide)


/-! ## Structural lemmas about the normalizer stages -/

namespace Txt

theorem mem_collapseAux {c : Char} :
    ∀ (b : Bool) (l : List Char), c ∈ collapseAux b l → c = ' ' ∨ (c ∈ l ∧ isWS c = false) := by
  intro b l
  induction l generalizing b with
  | nil => intro h; simp [collapseAux] at h
  | cons d ds ih =>
    intro h
    by_cases hd : isWS d
    · rcases b with _ | _
      · simp only [collapseAux, hd, if_true, Bool.false_eq_true, if_false, List.mem_cons] at h
        rcases h with rfl | h
        · exact Or.inl rfl
        · rcases ih true h with h' | ⟨h1, h2⟩
          · exact Or.inl h'
          · exact Or.inr ⟨List.mem_cons_of_mem d h1, h2⟩
      · simp only [collapseAux, hd, if_true] at h
        rcases ih true h with h' | ⟨h1, h2⟩
        · exact Or.inl h'
        · exact Or.inr ⟨List.mem_cons_of_mem d h1, h2⟩
    · simp only [collapseAux, hd, if_false] at h
      rcases List.mem_cons.mp h with rfl | h
      · exact Or.inr ⟨List.mem_cons_self c ds, by simpa using hd⟩
      · rcases ih false h with h' | ⟨h1, h2⟩
        · exact Or.inl h'
        · exact Or.inr ⟨List.mem_cons_of_mem d h1, h2⟩

theorem spacesOK_collapse (l : List Char) : SpacesOK (collapse l) := by
  intro c hc hws
  rcases mem_collapseAux false l hc with h | ⟨_, h2⟩
  · exact h
  · rw [hws] at h2; cases h2

theorem collapseAux_true_head (l : List Char) :
    collapseAux true l = [] ∨
      ∃ c rest, collapseAux true l = c :: rest ∧ isWS c = false := by
  induction l with
  | nil => exact Or.inl rfl
  | cons d ds ih =>
    by_cases hd : isWS d
    · simpa [collapseAux, hd] using ih
    · exact Or.inr ⟨d, collapseAux false ds, by simp [collapseAux, hd], by simpa using hd⟩

theorem noAdjWS_collapseAux (b : Bool) (l : List Char) : NoAdjWS (collapseAux b l) := by
  induction l generalizing b with
  | nil => exact List.chain'_nil
  | cons d ds ih =>
    by_cases hd : isWS d
    · rcases b with _ | _
      · have hgoal : collapseAux false (d :: ds) = ' ' :: collapseAux true ds := by
          simp [collapseAux, hd]
        rw [hgoal, NoAdjWS, List.chain'_cons']
        refine ⟨?_, ih true⟩
        intro y hy
        rcases collapseAux_true_head ds with h | ⟨c, rest, hc, hws⟩
        · rw [h] at hy; cases hy
        · rw [hc] at hy; simp at hy; subst hy
          rintro ⟨_, h2⟩; rw [hws] at h2; cases h2
      · have hgoal : collapseAux true (d :: ds) = collapseAux true ds := by
          simp [collapseAux, hd]
        rw [hgoal]; exact ih true
    · have hgoal : collapseAux b (d :: ds) = d :: collapseAux false ds := by
        simp [collapseAux, hd]
      rw [hgoal, NoAdjWS, List.chain'_cons']
      refine ⟨?_, ih false⟩
      rintro y _ ⟨h1, _⟩
      rw [h1] at hd; exact hd rfl

theorem noAdjWS_tail {c : Char} {l : List Char} (h : NoAdjWS (c :: l)) : NoAdjWS l :=
  (List.chain'_cons'.mp h).2

theorem collapseAux_false_id : ∀ (l : List Char), SpacesOK l → NoAdjWS l → collapseAux false l = l
  | [], _, _ => rfl
  | c :: cs, hsp, hadj => by
    by_cases hc : isWS c
    · have hc' : c = ' ' := hsp c (List.mem_cons_self c cs) hc
      subst hc'
      have htail : collapseAux true cs = cs := by
        cases cs with
        | nil => rfl
        | cons d ds =>
          have hd : isWS d = false := by
            have hrel := (List.chain'_cons'.mp hadj).1 d rfl
            by_contra hdt
            exact hrel ⟨hc, by simpa using hdt⟩
          have hall : collapseAux false (d :: ds) = d :: ds :=
            collapseAux_false_id (d :: ds)
              (fun e he hw => hsp e (List.mem_cons_of_mem ' ' he) hw)
              (noAdjWS_tail hadj)
          have hstep : collapseAux false (d :: ds) = d :: collapseAux false ds := by
            simp [collapseAux, hd]
          have htailstep : collapseAux true (d :: ds) = d :: collapseAux false ds := by
            simp [collapseAux, hd]
          rw [htailstep, ← hstep, hall]
      simp [collapseAux, hc, htail]
    · have hrest : collapseAux false cs = cs :=
        collapseAux_false_id cs (fun e he hw => hsp e (List.mem_cons_of_mem c he) hw)
          (noAdjWS_tail hadj)
      simp [collapseAux, hc, hrest]

theorem mem_stripBoth {c : Char} {l : List Char} (h : c ∈ stripBoth l) : c ∈ l := by
  unfold stripBoth at h
  rw [List.mem_reverse] at h
  have h1 := (List.dropWhile_sublist isWS).subset h
  rw [List.mem_reverse] at h1
  exact (List.dropWhile_sublist isWS).subset h1

theorem noAdjWS_reverse {l : List Char} (h : NoAdjWS l) : NoAdjWS l.reverse := by
  rw [NoAdjWS, List.chain'_reverse]
  exact h.imp fun a b hab ⟨x, y⟩ => hab ⟨y, x⟩

theorem noAdjWS_dropWhile {l : List Char} (p : Char → Bool) (h : NoAdjWS l) :
    NoAdjWS (l.dropWhile p) :=
  List.Chain'.suffix h ⟨l.takeWhile p, List.takeWhile_append_dropWhile p l⟩

theorem noAdjWS_stripBoth {l : List Char} (h : NoAdjWS l) : NoAdjWS (stripBoth l) :=
  noAdjWS_reverse (noAdjWS_dropWhile _ (noAdjWS_reverse (noAdjWS_dropWhile _ h)))

theorem dropWhile_head_not {p : Char → Bool} (l : List Char) {c : Char} {rest : List Char}
    (h : l.dropWhile p = c :: rest) : p c = false := by
  induction l with
  | nil => cases h
  | cons d ds ih =>
    by_cases hd : p d
    · rw [List.dropWhile_cons_of_pos hd] at h; exact ih h
    · rw [List.dropWhile_cons_of_neg hd] at h
      cases h; simpa using hd

theorem dropWhile_idem (p : Char → Bool) (l : List Char) :
    (l.dropWhile p).dropWhile p = l.dropWhile p := by
  cases h : l.dropWhile p with
  | nil => rfl
  | cons c rest => rw [List.dropWhile_cons_of_neg]; simp [dropWhile_head_not l h]

theorem stripBoth_head_not {l : List Char} {c : Char} {rest : List Char}
    (h : stripBoth l = c :: rest) : isWS c = false := by
  unfold stripBoth at h
  have hprefix : l.dropWhile isWS =
      stripBoth l ++ ((l.dropWhile isWS).reverse.takeWhile isWS).reverse := by
    unfold stripBoth
    conv_lhs => rw [← (l.dropWhile isWS).reverse_reverse,
      ← List.takeWhile_append_dropWhile isWS (l.dropWhile isWS).reverse]
    rw [List.reverse_append]
  rw [show stripBoth l = c :: rest from h] at hprefix
  exact dropWhile_head_not l hprefix

theorem stripBoth_idem (l : List Char) : stripBoth (stripBoth l) = stripBoth l := by
  have h1 : (stripBoth l).dropWhile isWS = stripBoth l := by
    cases h : stripBoth l with
    | nil => rfl
    | cons c rest => rw [List.dropWhile_cons_of_neg]; simp [stripBoth_head_not h]
  show ((((stripBoth l).dropWhile isWS).reverse).dropWhile isWS).reverse = stripBoth l
  rw [h1]
  conv_lhs =>
    rw [show stripBoth l = (List.dropWhile isWS (l.dropWhile isWS).reverse).reverse from rfl]
  rw [List.reverse_reverse, dropWhile_idem]
  rfl

end Txt

namespace Extractor

theorem renderToks_append (a b : List Toke) :
    renderToks (a ++ b) = renderToks a ++ renderToks b := by
  induction a with
  | nil => rfl
  | cons t ts ih => cases t <;> simp [renderToks, ih]

theorem render_tokenizeAux (l : List Char) :
    ∀ acc, renderToks (tokenizeAux acc l) = acc.reverse ++ l := by
  induction l with
  | nil =>
    intro acc
    by_cases h : acc = []
    · simp [tokenizeAux, flushAcc, h, renderToks]
    · simp [tokenizeAux, flushAcc, h, renderToks]
  | cons c cs ih =>
    intro acc
    by_cases hw : Txt.isWordChar c
    · simp [tokenizeAux, hw, ih (c :: acc)]
    · by_cases ha : acc = []
      · simp [tokenizeAux, hw, flushAcc, ha, renderToks, ih []]
      · simp [tokenizeAux, hw, flushAcc, ha, renderToks, ih []]

theorem render_tokenize (l : List Char) : renderToks (tokenize l) = l := by
  simpa using render_tokenizeAux l []

theorem wrd_mem_tokenizeAux {s : List Char} :
    ∀ (l acc : List Char), Toke.wrd s ∈ tokenizeAux acc l →
      s ≠ [] ∧ ∀ c ∈ s, c ∈ acc ∨ c ∈ l := by
  intro l
  induction l with
  | nil =>
    intro acc h
    replace h : Toke.wrd s ∈ flushAcc acc [] := h
    by_cases ha : acc = []
    · rw [flushAcc, if_pos (by simpa using ha)] at h; cases h
    · rw [flushAcc, if_neg (by simpa using ha)] at h
      rcases List.mem_cons.mp h with heq | hm
      · have hs : s = acc.reverse := by injection heq
        subst hs
        exact ⟨by simpa using ha, fun c hc => Or.inl (by simpa using hc)⟩
      · cases hm
  | cons c cs ih =>
    intro acc h
    by_cases hw : Txt.isWordChar c
    · obtain ⟨hne, hmem⟩ := ih (c :: acc) (by simpa [tokenizeAux, hw] using h)
      refine ⟨hne, fun d hd => ?_⟩
      rcases hmem d hd with hacc | hcs
      · rcases List.mem_cons.mp hacc with rfl | h'
        · exact Or.inr (List.mem_cons_self d cs)
        · exact Or.inl h'
      · exact Or.inr (List.mem_cons_of_mem c hcs)
    · have h' : Toke.wrd s ∈ flushAcc acc (Toke.sep c :: tokenizeAux [] cs) := by
        simpa [tokenizeAux, hw] using h
      have hsep : Toke.wrd s ∈ Toke.sep c :: tokenizeAux [] cs →
          s ≠ [] ∧ ∀ d ∈ s, d ∈ acc ∨ d ∈ c :: cs := by
        intro hm
        rcases List.mem_cons.mp hm with heq | hm'
        · cases heq
        · obtain ⟨hne, hmem⟩ := ih [] hm'
          refine ⟨hne, fun d hd => ?_⟩
          rcases hmem d hd with h0 | h1
          · cases h0
          · exact Or.inr (List.mem_cons_of_mem c h1)
      by_cases ha : acc = []
      · exact hsep (by simpa [flushAcc, ha] using h')
      · rw [flushAcc, if_neg (by simpa using ha)] at h'
        rcases List.mem_cons.mp h' with heq | hm
        · have hs : s = acc.reverse := by injection heq
          subst hs
          exact ⟨by simpa using ha, fun d hd => Or.inl (by simpa using hd)⟩
        · exact hsep hm

theorem subNumTokens_eq_self_of_noDigit {lo hi : Nat} {f : List Char → List Char}
    {l : List Char} (h : ∀ c ∈ l, c.isDigit = false) :
    ∀ t ∈ tokenize l, subNumTokens lo hi f t = t := by
  intro t ht
  cases t with
  | sep c => rfl
  | wrd s =>
    obtain ⟨hne, hmem⟩ := wrd_mem_tokenizeAux l [] ht
    rw [subNumTokens, gateFix, if_neg]
    rintro ⟨hdig, -⟩
    rcases s with _ | ⟨c, s'⟩
    · exact hne rfl
    · have hc : c.isDigit = true := by
        have := List.all_eq_true.mp hdig c (List.mem_cons_self c s')
        simpa using this
      rcases hmem c (List.mem_cons_self c s') with h0 | h1
      · cases h0
      · rw [h c h1] at hc; cases hc

theorem numberPass_id_of_noDigit (lo hi : Nat) (f : List Char → List Char)
    (l : List Char) (h : ∀ c ∈ l, c.isDigit = false) :
    numberPass lo hi f l = l := by
  unfold numberPass
  rw [show (tokenize l).map (subNumTokens lo hi f) = tokenize l from by
    rw [List.map_congr_left (subNumTokens_eq_self_of_noDigit h)]
    exact List.map_id' (tokenize l)]
  exact render_tokenize l

end Extractor

namespace Extractor

theorem replCRLF_cons_of_ne (c : Char) (cs : List Char) (hc : c ≠ '\r') :
    replCRLF (c :: cs) = c :: replCRLF cs := by
  cases cs <;> simp [replCRLF, hc]

theorem replCRLF_id (l : List Char) (h : ∀ c ∈ l, c ≠ '\r') : replCRLF l = l := by
  induction l with
  | nil => rfl
  | cons c cs ih =>
    rw [replCRLF_cons_of_ne c cs (h c (List.mem_cons_self c cs)),
      ih fun e he => h e (List.mem_cons_of_mem c he)]

theorem splitNL_single (l : List Char) (h : ∀ c ∈ l, c ≠ '\n') : splitNL l = [l] := by
  induction l with
  | nil => rfl
  | cons c cs ih =>
    have hc : c ≠ '\n' := h c (List.mem_cons_self c cs)
    simp [splitNL, hc, ih fun e he => h e (List.mem_cons_of_mem c he)]

theorem linesStage_eq (l : List Char) (h : ∀ c ∈ l, c ≠ '\n') :
    joinNL (((splitNL l).map Txt.stripBoth).filter (· ≠ [])) = Txt.stripBoth l := by
  rw [splitNL_single l h]
  by_cases hs : Txt.stripBoth l = []
  · simp [hs, joinNL]
  · simp [hs, joinNL]

/-- Closed form of `clean_text` on inputs made of whitelisted characters with
no digits: it collapses whitespace and strips — the whitelist filter, the
line-terminator pass, the blank-line pass and the two numeric passes are all
the identity there. -/
theorem clean_text_eq_strip_collapse (x : String) (hx : ¬x = "")
    (hall : ∀ c ∈ x.data, isAllowed c = true)
    (hnd : ∀ c ∈ x.data, c.isDigit = false) :
    clean_text x = String.mk (Txt.stripBoth (Txt.collapse x.data)) := by
  have hmem1 : ∀ c ∈ Txt.collapse x.data, isAllowed c = true := by
    intro c hc
    rcases Txt.mem_collapseAux false x.data hc with rfl | ⟨h1, _⟩
    · decide
    · exact hall c h1
  have hspok : Txt.SpacesOK (Txt.collapse x.data) := Txt.spacesOK_collapse x.data
  have hnoCR : ∀ c ∈ Txt.collapse x.data, c ≠ '\r' := by
    intro c hc heq
    subst heq
    have := hspok '\r' hc (by decide)
    cases this
  have hnoNL : ∀ c ∈ Txt.collapse x.data, c ≠ '\n' := by
    intro c hc heq
    subst heq
    have := hspok '\n' hc (by decide)
    cases this
  have hnd1 : ∀ c ∈ Txt.collapse x.data, c.isDigit = false := by
    intro c hc
    rcases Txt.mem_collapseAux false x.data hc with rfl | ⟨h1, _⟩
    · decide
    · exact hnd c h1
  have hnd2 : ∀ c ∈ Txt.stripBoth (Txt.collapse x.data), c.isDigit = false :=
    fun c hc => hnd1 c (Txt.mem_stripBoth hc)
  unfold clean_text
  rw [if_neg hx]
  simp only [List.filter_eq_self.mpr hmem1, replCRLF_id _ hnoCR,
    linesStage_eq _ hnoNL, pass1, pass2,
    numberPass_id_of_noDigit 4 6 fix_number_format _ hnd2,
    numberPass_id_of_noDigit 6 7 fix_large_number_format _ hnd2,
    Txt.stripBoth_idem]

end Extractor

/-- **C3 counterexample.**  `clean_text` is not idempotent: the whitelist strip
can create a double space that a second run collapses (`"a * b"`), and the
numeric-repair pass can re-split the 4-digit prefix of a number it already
repaired (`"250000"` → `"2500.00"` → `"25.00.00"`). -/
theorem clean_text_not_idem :
    Extractor.clean_text (Extractor.clean_text "a * b") ≠ Extractor.clean_text "a * b"
    ∧ Extractor.clean_text (Extractor.clean_text "250000") ≠ Extractor.clean_text "250000" := by
  constructor
  · decide
  · decide

/-- **C3 (amended).**  `normalize(normalize(x)) = normalize(x)` does hold on
every input whose characters all belong to the whitelist and that contains no
decimal digit — exactly the two failure sources exhibited by the
counterexample are excluded. -/
theorem clean_text_idem_of_allowed (x : String)
    (hall : ∀ c ∈ x.data, Extractor.isAllowed c = true)
    (hnd : ∀ c ∈ x.data, c.isDigit = false) :
    Extractor.clean_text (Extractor.clean_text x) = Extractor.clean_text x := by
  by_cases hx : x = ""
  · subst hx; rfl
  · have hz := Extractor.clean_text_eq_strip_collapse x hx hall hnd
    set z := Txt.stripBoth (Txt.collapse x.data) with hzdef
    have hmem_z : ∀ c ∈ z, c = ' ' ∨ c ∈ x.data := by
      intro c hc
      rcases Txt.mem_collapseAux false x.data (Txt.mem_stripBoth hc) with h | ⟨h1, _⟩
      · exact Or.inl h
      · exact Or.inr h1
    have hall_z : ∀ c ∈ z, Extractor.isAllowed c = true := by
      intro c hc
      rcases hmem_z c hc with rfl | h
      · decide
      · exact hall c h
    have hnd_z : ∀ c ∈ z, c.isDigit = false := by
      intro c hc
      rcases hmem_z c hc with rfl | h
      · decide
      · exact hnd c h
    have hspok_z : Txt.SpacesOK z := fun c hc hw =>
      Txt.spacesOK_collapse x.data c (Txt.mem_stripBoth hc) hw
    have hadj_z : Txt.NoAdjWS z :=
      Txt.noAdjWS_stripBoth (Txt.noAdjWS_collapseAux false x.data)
    rw [hz]
    by_cases hempty : z = []
    · rw [hempty]; decide
    · have hx2 : ¬(String.mk z = "") := by
        intro h
        apply hempty
        simpa [String.ext_iff] using h
      rw [Extractor.clean_text_eq_strip_collapse (String.mk z) hx2 hall_z hnd_z]
      have hcol : Txt.collapse z = z := Txt.collapseAux_false_id z hspok_z hadj_z
      rw [show (String.mk z).data = z from rfl, hcol, hzdef, Txt.stripBoth_idem]

/-- Witness for C3 (amended): a digit-free text of whitelisted characters. -/
theorem clean_text_idem_of_allowed_witness :
    Extractor.clean_text (Extractor.clean_text "Arbeitgeber  Acme GmbH, (Berlin); Lohn: € -")
      = Extractor.clean_text "Arbeitgeber  Acme GmbH, (Berlin); Lohn: € -" :=
  clean_text_idem_of_allowed "Arbeitgeber  Acme GmbH, (Berlin); Lohn: € -"
    (by decide) (by decide)

namespace Extractor

theorem tokenizeAux_word_run (w : List Char) (hw : ∀ c ∈ w, Txt.isWordChar c = true) :
    ∀ (rest acc : List Char), tokenizeAux acc (w ++ rest) = tokenizeAux (w.reverse ++ acc) rest := by
  induction w with
  | nil => intro rest acc; rfl
  | cons c w' ih =>
    intro rest acc
    have hc : Txt.isWordChar c = true := hw c (List.mem_cons_self c w')
    have hstep : tokenizeAux acc (c :: (w' ++ rest)) = tokenizeAux (c :: acc) (w' ++ rest) := by
      simp [tokenizeAux, hc]
    rw [List.cons_append, hstep, ih (fun d hd => hw d (List.mem_cons_of_mem c hd)) rest (c :: acc)]
    simp

theorem tokenize_over_seps (pre : List Char) (hpre : ∀ c ∈ pre, Txt.isWordChar c = false) :
    ∀ rest, tokenize (pre ++ rest) = pre.map Toke.sep ++ tokenize rest := by
  induction pre with
  | nil => intro rest; rfl
  | cons c pre' ih =>
    intro rest
    have hc : Txt.isWordChar c = false := hpre c (List.mem_cons_self c pre')
    have hstep : tokenize (c :: (pre' ++ rest)) = Toke.sep c :: tokenize (pre' ++ rest) := by
      simp [tokenize, tokenizeAux, hc, flushAcc]
    rw [List.cons_append, hstep, ih (fun d hd => hpre d (List.mem_cons_of_mem c hd)) rest]
    rfl

theorem tokenize_seps (suf : List Char) (hsuf : ∀ c ∈ suf, Txt.isWordChar c = false) :
    tokenize suf = suf.map Toke.sep := by
  have h := tokenize_over_seps suf hsuf []
  simpa [tokenize, tokenizeAux, flushAcc] using h

theorem tokenizeAux_boundary (acc : List Char) {rest : List Char} (h : AtBoundary rest) :
    tokenizeAux acc rest = flushAcc acc (tokenize rest) := by
  rcases h with rfl | ⟨c, rest', rfl, hc⟩
  · rfl
  · have h1 : tokenize (c :: rest') = Toke.sep c :: tokenizeAux [] rest' := by
      simp [tokenize, tokenizeAux, hc, flushAcc]
    rw [h1]
    simp [tokenizeAux, hc]

theorem tokenize_word (w : List Char) (rest : List Char) (hne : w ≠ [])
    (hw : ∀ c ∈ w, Txt.isWordChar c = true) (hb : AtBoundary rest) :
    tokenize (w ++ rest) = Toke.wrd w :: tokenize rest := by
  show tokenizeAux [] (w ++ rest) = _
  rw [tokenizeAux_word_run w hw rest [], List.append_nil,
    tokenizeAux_boundary w.reverse hb, flushAcc,
    if_neg (by simpa using hne)]
  simp

theorem map_sub_over_seps (lo hi : Nat) (f : List Char → List Char) (pre : List Char) :
    (pre.map Toke.sep).map (subNumTokens lo hi f) = pre.map Toke.sep := by
  rw [List.map_map]
  exact List.map_congr_left fun a _ => rfl

theorem renderToks_seps (pre : List Char) : renderToks (pre.map Toke.sep) = pre := by
  induction pre with
  | nil => rfl
  | cons c pre' ih => simp [renderToks, ih]

/-- A `numberPass` applied to a single standalone token in non-word context. -/
theorem numberPass_single (lo hi : Nat) (f : List Char → List Char)
    (pre t suf : List Char)
    (hpre : ∀ c ∈ pre, Txt.isWordChar c = false)
    (hsuf : ∀ c ∈ suf, Txt.isWordChar c = false)
    (hw : ∀ c ∈ t, Txt.isWordChar c = true) (hne : t ≠ []) :
    numberPass lo hi f (pre ++ t ++ suf) = pre ++ gateFix lo hi f t ++ suf := by
  have hbsuf : AtBoundary suf := by
    cases suf with
    | nil => exact Or.inl rfl
    | cons c s => exact Or.inr ⟨c, s, rfl, hsuf c (List.mem_cons_self c s)⟩
  have htok : tokenize (pre ++ t ++ suf) = pre.map Toke.sep ++ Toke.wrd t :: suf.map Toke.sep := by
    rw [List.append_assoc, tokenize_over_seps pre hpre, tokenize_word t suf hne hw hbsuf,
      tokenize_seps suf hsuf]
  unfold numberPass
  rw [htok, List.map_append, List.map_cons, map_sub_over_seps,
    renderToks_append, renderToks_seps]
  simp only [subNumTokens, renderToks, map_sub_over_seps, renderToks_seps,
    List.append_assoc, List.cons_append]

/-- A `numberPass` applied to two standalone digit tokens separated by a dot,
in non-word context — the shape produced by a successful first repair. -/
theorem numberPass_word_dot_word (lo hi : Nat) (f : List Char → List Char)
    (pre t1 t2 suf : List Char)
    (hpre : ∀ c ∈ pre, Txt.isWordChar c = false)
    (hsuf : ∀ c ∈ suf, Txt.isWordChar c = false)
    (hw1 : ∀ c ∈ t1, Txt.isWordChar c = true) (hne1 : t1 ≠ [])
    (hw2 : ∀ c ∈ t2, Txt.isWordChar c = true) (hne2 : t2 ≠ []) :
    numberPass lo hi f (pre ++ (t1 ++ '.' :: t2) ++ suf)
      = pre ++ (gateFix lo hi f t1 ++ '.' :: gateFix lo hi f t2) ++ suf := by
  have hbsuf : AtBoundary suf := by
    cases suf with
    | nil => exact Or.inl rfl
    | cons c s => exact Or.inr ⟨c, s, rfl, hsuf c (List.mem_cons_self c s)⟩
  have hdot : Txt.isWordChar '.' = false := by decide
  have htok : tokenize (pre ++ (t1 ++ '.' :: t2) ++ suf)
      = pre.map Toke.sep ++ Toke.wrd t1 :: Toke.sep '.' :: Toke.wrd t2 :: suf.map Toke.sep := by
    have hassoc : pre ++ (t1 ++ '.' :: t2) ++ suf = pre ++ (t1 ++ ('.' :: (t2 ++ suf))) := by
      simp
    rw [hassoc, tokenize_over_seps pre hpre,
      tokenize_word t1 ('.' :: (t2 ++ suf)) hne1 hw1 (Or.inr ⟨'.', t2 ++ suf, rfl, hdot⟩),
      show ('.' :: (t2 ++ suf)) = ['.'] ++ (t2 ++ suf) from rfl,
      tokenize_over_seps ['.'] (by intro c hc; simp at hc; subst hc; exact hdot),
      tokenize_word t2 suf hne2 hw2 hbsuf,
      tokenize_seps suf hsuf]
    simp
  unfold numberPass
  rw [htok, List.map_append, List.map_cons, List.map_cons, List.map_cons,
    map_sub_over_seps, renderToks_append, renderToks_seps]
  simp only [subNumTokens, renderToks, map_sub_over_seps, renderToks_seps,
    List.append_assoc, List.cons_append]

end Extractor

theorem digit_toNat_le {c : Char} (h : c.isDigit = true) : c.toNat - '0'.toNat ≤ 9 := by
  simp [Char.isDigit] at h
  obtain ⟨h1, h2⟩ := h
  have g1 : (48 : UInt32).toNat ≤ c.val.toNat := h1
  have g2 : c.val.toNat ≤ (57 : UInt32).toNat := h2
  have e1 : (48 : UInt32).toNat = 48 := rfl
  have e2 : (57 : UInt32).toNat = 57 := rfl
  have e3 : c.toNat = c.val.toNat := rfl
  have e4 : ('0' : Char).toNat = 48 := rfl
  omega

theorem digitsToNat_foldl_lt (s : List Char) :
    ∀ a : Nat, (∀ c ∈ s, c.isDigit = true) →
      List.foldl (fun a c => a * 10 + (c.toNat - '0'.toNat)) a s < (a + 1) * 10 ^ s.length := by
  induction s with
  | nil => intro a _; simp
  | cons c s' ih =>
    intro a h
    have hd : c.toNat - '0'.toNat ≤ 9 := digit_toNat_le (h c (List.mem_cons_self c s'))
    have h1 := ih (a * 10 + (c.toNat - '0'.toNat))
      fun d hd' => h d (List.mem_cons_of_mem c hd')
    calc List.foldl (fun a c => a * 10 + (c.toNat - '0'.toNat)) a (c :: s')
        = List.foldl (fun a c => a * 10 + (c.toNat - '0'.toNat))
            (a * 10 + (c.toNat - '0'.toNat)) s' := rfl
      _ < (a * 10 + (c.toNat - '0'.toNat) + 1) * 10 ^ s'.length := h1
      _ ≤ ((a + 1) * 10) * 10 ^ s'.length :=
          Nat.mul_le_mul_right _ (by omega)
      _ = (a + 1) * 10 ^ (c :: s').length := by
          rw [List.length_cons, pow_succ]; ring

theorem digitsToNat_lt (s : List Char) (h : ∀ c ∈ s, c.isDigit = true) :
    Txt.digitsToNat s < 10 ^ s.length := by
  have h0 := digitsToNat_foldl_lt s 0 h
  simpa using h0

namespace Extractor

theorem fix_number_format_eq (s : List Char) :
    fix_number_format s =
      if 4 ≤ s.length ∧ s.length ≤ 6 then
        if 1000 ≤ Txt.digitsToNat s ∧ Txt.digitsToNat s ≤ 999999 then
          if 5 ≤ s.length then s.take (s.length - 2) ++ '.' :: s.drop (s.length - 2)
          else if 2000 < Txt.digitsToNat s then
            s.take (s.length - 2) ++ '.' :: s.drop (s.length - 2)
          else s
        else s
      else s := rfl

theorem fix_large_number_format_eq (s : List Char) :
    fix_large_number_format s =
      if 6 ≤ s.length then
        if 100000 ≤ Txt.digitsToNat s ∧ Txt.digitsToNat s ≤ 999999 then
          s.take (s.length - 2) ++ '.' :: s.drop (s.length - 2)
        else s
      else s := rfl

end Extractor

/-- **C2.**  The numeric-repair stage of `clean_text` (the composition of the
`\b\d{4,6}\b` pass with `fix_number_format` and the `\b\d{6,7}\b` pass with
`fix_large_number_format`) rewrites every standalone digit token — in an
arbitrary non-word-character context — exactly as the claim's predicate
`claimNumericRepair` prescribes, and `clean_text " 58075 " = "580.75"`. -/
theorem numeric_repair_spec (pre t suf : List Char)
    (hpre : ∀ c ∈ pre, Txt.isWordChar c = false)
    (hsuf : ∀ c ∈ suf, Txt.isWordChar c = false)
    (ht : ∀ c ∈ t, c.isDigit = true) (hne : t ≠ []) :
    Extractor.pass2 (Extractor.pass1 (pre ++ t ++ suf))
      = pre ++ Extractor.claimNumericRepair t ++ suf
    ∧ Extractor.clean_text " 58075 " = "580.75" := by
  refine ⟨?_, by decide⟩
  have hwt : ∀ c ∈ t, Txt.isWordChar c = true := fun c hc => by
    simp [Txt.isWordChar, ht c hc]
  have hall : t.all Char.isDigit = true := List.all_eq_true.mpr fun c hc => ht c hc
  have hvlt : Txt.digitsToNat t < 10 ^ t.length := digitsToNat_lt t ht
  rw [Extractor.pass1,
    Extractor.numberPass_single 4 6 Extractor.fix_number_format pre t suf hpre hsuf hwt hne]
  by_cases hlen46 : 4 ≤ t.length ∧ t.length ≤ 6
  · have hgate1 : Extractor.gateFix 4 6 Extractor.fix_number_format t
        = Extractor.fix_number_format t := by
      rw [Extractor.gateFix, if_pos ⟨hall, hlen46.1, hlen46.2⟩]
    have hv999 : Txt.digitsToNat t ≤ 999999 := by
      have h10 : (10 : Nat) ^ t.length ≤ 10 ^ 6 := Nat.pow_le_pow_right (by norm_num) hlen46.2
      have : (10 : Nat) ^ 6 = 1000000 := by norm_num
      omega
    by_cases hfire : 1000 ≤ Txt.digitsToNat t ∧ (5 ≤ t.length ∨ 2000 < Txt.digitsToNat t)
    · have hfix : Extractor.fix_number_format t
          = t.take (t.length - 2) ++ '.' :: t.drop (t.length - 2) := by
        rw [Extractor.fix_number_format_eq, if_pos hlen46, if_pos ⟨hfire.1, hv999⟩]
        by_cases h5 : 5 ≤ t.length
        · rw [if_pos h5]
        · have h2 : 2000 < Txt.digitsToNat t := by
            rcases hfire.2 with h | h
            · exact absurd h h5
            · exact h
          rw [if_neg h5, if_pos h2]
      have hlt1 : (t.take (t.length - 2)).length = t.length - 2 := by
        rw [List.length_take]; omega
      have hlt2 : (t.drop (t.length - 2)).length = 2 := by
        rw [List.length_drop]; omega
      have hne1 : t.take (t.length - 2) ≠ [] := by
        rw [← List.length_pos]; omega
      have hne2 : t.drop (t.length - 2) ≠ [] := by
        rw [← List.length_pos]; omega
      have hw1 : ∀ c ∈ t.take (t.length - 2), Txt.isWordChar c = true :=
        fun c hc => hwt c (List.take_subset _ t hc)
      have hw2 : ∀ c ∈ t.drop (t.length - 2), Txt.isWordChar c = true :=
        fun c hc => hwt c (List.drop_subset _ t hc)
      rw [hgate1, hfix, Extractor.pass2,
        Extractor.numberPass_word_dot_word 6 7 Extractor.fix_large_number_format
          pre _ _ suf hpre hsuf hw1 hne1 hw2 hne2]
      have hg1 : Extractor.gateFix 6 7 Extractor.fix_large_number_format (t.take (t.length - 2))
          = t.take (t.length - 2) := by
        rw [Extractor.gateFix, if_neg]
        rintro ⟨-, h6, -⟩
        omega
      have hg2 : Extractor.gateFix 6 7 Extractor.fix_large_number_format (t.drop (t.length - 2))
          = t.drop (t.length - 2) := by
        rw [Extractor.gateFix, if_neg]
        rintro ⟨-, h6, -⟩
        omega
      rw [hg1, hg2, Extractor.claimNumericRepair, if_pos]
      · left
        refine ⟨hlen46.1, hlen46.2, hfire.1, hv999, ?_⟩
        by_cases h5 : 5 ≤ t.length
        · exact Or.inl h5
        · refine Or.inr ⟨by omega, ?_⟩
          rcases hfire.2 with h | h
          · exact absurd h h5
          · exact h
    · have hfix : Extractor.fix_number_format t = t := by
        rw [Extractor.fix_number_format_eq, if_pos hlen46]
        by_cases hv : 1000 ≤ Txt.digitsToNat t ∧ Txt.digitsToNat t ≤ 999999
        · have h5 : ¬(5 ≤ t.length) := fun h => hfire ⟨hv.1, Or.inl h⟩
          have h2 : ¬(2000 < Txt.digitsToNat t) := fun h => hfire ⟨hv.1, Or.inr h⟩
          rw [if_pos hv, if_neg h5, if_neg h2]
        · rw [if_neg hv]
      rw [hgate1, hfix, Extractor.pass2,
        Extractor.numberPass_single 6 7 Extractor.fix_large_number_format
          pre t suf hpre hsuf hwt hne]
      have hgate2 : Extractor.gateFix 6 7 Extractor.fix_large_number_format t = t := by
        by_cases h6 : 6 ≤ t.length ∧ t.length ≤ 7
        · rw [Extractor.gateFix, if_pos ⟨hall, h6.1, h6.2⟩,
            Extractor.fix_large_number_format_eq, if_pos h6.1, if_neg]
          rintro ⟨h1e5, -⟩
          exact hfire ⟨by omega, Or.inl (by omega)⟩
        · rw [Extractor.gateFix, if_neg]
          rintro ⟨-, ha, hb⟩
          exact h6 ⟨ha, hb⟩
      rw [hgate2, Extractor.claimNumericRepair, if_neg]
      rintro (⟨-, -, hv1, -, hd⟩ | ⟨h6, -, h1e5, -⟩)
      · refine hfire ⟨hv1, ?_⟩
        rcases hd with h | ⟨-, h⟩
        · exact Or.inl h
        · exact Or.inr h
      · exact hfire ⟨by omega, Or.inl (by omega)⟩
  · have hgate1 : Extractor.gateFix 4 6 Extractor.fix_number_format t = t := by
      rw [Extractor.gateFix, if_neg]
      rintro ⟨-, a, b⟩
      exact hlen46 ⟨a, b⟩
    rw [hgate1, Extractor.pass2,
      Extractor.numberPass_single 6 7 Extractor.fix_large_number_format
        pre t suf hpre hsuf hwt hne]
    by_cases h7 : t.length = 7
    · have hgate2 : Extractor.gateFix 6 7 Extractor.fix_large_number_format t
          = Extractor.fix_large_number_format t := by
        rw [Extractor.gateFix, if_pos ⟨hall, by omega, by omega⟩]
      rw [hgate2, Extractor.fix_large_number_format_eq, if_pos (by omega)]
      by_cases hv : 100000 ≤ Txt.digitsToNat t ∧ Txt.digitsToNat t ≤ 999999
      · rw [if_pos hv, Extractor.claimNumericRepair,
          if_pos (Or.inr ⟨by omega, by omega, hv.1, hv.2⟩)]
      · rw [if_neg hv, Extractor.claimNumericRepair, if_neg]
        rintro (⟨a, b, -⟩ | ⟨-, -, c, d⟩)
        · exact hlen46 ⟨a, b⟩
        · exact hv ⟨c, d⟩
    · have hgate2 : Extractor.gateFix 6 7 Extractor.fix_large_number_format t = t := by
        rw [Extractor.gateFix, if_neg]
        rintro ⟨-, a, b⟩
        have : t.length = 6 ∨ t.length = 7 := by omega
        rcases this with h | h
        · exact hlen46 ⟨by omega, by omega⟩
        · exact h7 h
      rw [hgate2, Extractor.claimNumericRepair, if_neg]
      rintro (⟨a, b, -⟩ | ⟨a, b, -⟩)
      · exact hlen46 ⟨a, b⟩
      · have : t.length = 6 ∨ t.length = 7 := by omega
        rcases this with h | h
        · exact hlen46 ⟨by omega, by omega⟩
        · exact h7 h

/-- Witness for C2: the token `58075` between spaces becomes `580.75`. -/
theorem numeric_repair_spec_witness :
    Extractor.pass2 (Extractor.pass1 ([' '] ++ "58075".data ++ [' ']))
      = [' '] ++ Extractor.claimNumericRepair "58075".data ++ [' ']
    ∧ Extractor.clean_text " 58075 " = "580.75" :=
  numeric_repair_spec [' '] "58075".data [' ']
    (by decide) (by decide) (by decide) (by decide)

